import Mathlib

/-
Verification of the kmesh workload processor
(pkg/controller/workload/workload_processor.go) against its
natural-language specification.

The processor's state (the four packet-path tables, the hash-name
mapping, the resource caches and the out-of-order buffer) is embedded
as a Lean structure; each Go function of the processor is translated
to a Lean function threading that state.  Components of the repository
that are not part of the provided source (the bpf table wrappers of
pkg/controller/workload/bpfcache, the HashName component, the resource
caches of pkg/controller/workload/cache, and the helpers of pkg/nets)
are modelled from the specification, as noted on each definition.

Table writes and deletes may fail in Go; failure is modelled by an
explicit fault schedule carried in the state: each mutating table
operation consumes one entry of the schedule and fails when that entry
is true.  An empty schedule means every operation succeeds.  The
counter failedWrites records how many table mutations have failed, so
that error-propagation properties can be stated observationally.
-/

namespace Kmesh

/-! ## Association-list maps

The bpf hash tables and the Go maps are modelled as association lists
with insert-or-replace update and delete, as described in the
specification (§4.2: update is insert-or-replace, lookup distinguishes
found from not found, delete removes the key). -/

def alookup {κ α : Type} [DecidableEq κ] (k : κ) : List (κ × α) → Option α
  | [] => none
  | (k', v) :: t => if k' = k then some v else alookup k t

def aremove {κ α : Type} [DecidableEq κ] (k : κ) (l : List (κ × α)) : List (κ × α) :=
  l.filter (fun p => p.1 ≠ k)

def aupdate {κ α : Type} [DecidableEq κ] (k : κ) (v : α) (l : List (κ × α)) : List (κ × α) :=
  (k, v) :: aremove k l

theorem alookup_aremove {κ α : Type} [DecidableEq κ] (k k' : κ) (l : List (κ × α)) :
    alookup k (aremove k' l) = if k' = k then none else alookup k l := by
  induction l with
  | nil => simp [aremove, alookup]
  | cons p t ih =>
    obtain ⟨k₀, v₀⟩ := p
    by_cases h₀ : k₀ = k'
    · subst h₀
      have hrm : aremove k₀ ((k₀, v₀) :: t) = aremove k₀ t := by
        simp [aremove, List.filter_cons]
      rw [hrm, ih]
      by_cases hk : k₀ = k
      · simp [hk]
      · simp [alookup, hk]
    · have hrm : aremove k' ((k₀, v₀) :: t) = (k₀, v₀) :: aremove k' t := by
        simp [aremove, List.filter_cons, h₀]
      rw [hrm]
      by_cases hk : k₀ = k
      · subst hk
        have hk' : k' ≠ k₀ := fun h => h₀ h.symm
        simp [alookup, hk']
      · simp [alookup, hk, ih]

theorem alookup_aupdate {κ α : Type} [DecidableEq κ] (k k' : κ) (v : α) (l : List (κ × α)) :
    alookup k (aupdate k' v l) = if k' = k then some v else alookup k l := by
  by_cases h : k' = k <;> simp [aupdate, alookup, h, alookup_aremove]

theorem alookup_aupdate_self {κ α : Type} [DecidableEq κ] (k : κ) (v : α) (l : List (κ × α)) :
    alookup k (aupdate k v l) = some v := by
  simp [alookup_aupdate]

theorem alookup_aremove_self {κ α : Type} [DecidableEq κ] (k : κ) (l : List (κ × α)) :
    alookup k (aremove k l) = none := by
  simp [alookup_aremove]

theorem alookup_aremove_ne {κ α : Type} [DecidableEq κ] {k k' : κ} (l : List (κ × α))
    (h : k' ≠ k) : alookup k (aremove k' l) = alookup k l := by
  simp [alookup_aremove, h]

theorem alookup_aupdate_ne {κ α : Type} [DecidableEq κ] {k k' : κ} (v : α) (l : List (κ × α))
    (h : k' ≠ k) : alookup k (aupdate k' v l) = alookup k l := by
  simp [alookup_aupdate, h]

theorem aremove_aremove_self {κ α : Type} [DecidableEq κ] (k : κ) (l : List (κ × α)) :
    aremove k (aremove k l) = aremove k l := by
  simp [aremove, List.filter_filter]

/-- Keys of an association list are pairwise distinct. -/
def nodupKeys {κ α : Type} (l : List (κ × α)) : Prop := (l.map Prod.fst).Nodup

instance {κ α : Type} [DecidableEq κ] (l : List (κ × α)) : Decidable (nodupKeys l) := by
  unfold nodupKeys
  infer_instance

theorem nodupKeys_aremove {κ α : Type} [DecidableEq κ] (k : κ) {l : List (κ × α)}
    (h : nodupKeys l) : nodupKeys (aremove k l) := by
  unfold nodupKeys aremove at *
  exact List.Nodup.sublist (List.Sublist.map Prod.fst (List.filter_sublist l)) h

theorem nodupKeys_aupdate {κ α : Type} [DecidableEq κ] (k : κ) (v : α) {l : List (κ × α)}
    (h : nodupKeys l) : nodupKeys (aupdate k v l) := by
  unfold nodupKeys aupdate at *
  refine List.nodup_cons.2 ⟨?_, nodupKeys_aremove k h⟩
  simp only [List.mem_map]
  rintro ⟨⟨k₀, v₀⟩, hmem, hk⟩
  simp only [aremove, List.mem_filter, decide_eq_true_eq] at hmem
  exact hmem.2 hk

/-! ## Data model -/

/-- Startup mode flag (spec §6): modelled from the spec, the
kmeshbpf.GetStartType / SetStartType pair is not under src. -/
inductive StartType
  | Normal
  | Restart
deriving DecidableEq, Repr

inductive Err
  | writeErr
  | lookupErr
  | panicErr
deriving DecidableEq, Repr

inductive NetworkMode
  | standard
  | hostNetwork
deriving DecidableEq, Repr

structure GatewayAddress where
  address : List Nat
  hboneMtlsPort : Nat
deriving DecidableEq, Repr

structure Workload where
  uid : String
  addresses : List (List Nat)
  services : List String
  waypoint : Option GatewayAddress
  networkMode : NetworkMode
deriving DecidableEq, Repr

structure Port where
  servicePort : Nat
  targetPort : Nat
deriving DecidableEq, Repr

structure Service where
  ns : String
  hostname : String
  addresses : List (List Nat)
  ports : List Port
  waypoint : Option GatewayAddress
deriving DecidableEq, Repr

def Service.resourceName (s : Service) : String := s.ns ++ "/" ++ s.hostname

def zero16 : List Nat := List.replicate 16 0

def zero10 : List Nat := List.replicate 10 0

/-- Table value of the Service table (bpf.ServiceValue); Go zero
values are the record defaults. -/
structure ServiceValue where
  endpointCount : Nat := 0
  lbPolicy : Nat := 0
  servicePort : List Nat := zero10
  targetPort : List Nat := zero10
  waypointAddr : List Nat := zero16
  waypointPort : Nat := 0
deriving DecidableEq, Repr

/-- Table value of the Backend table (bpf.BackendValue). -/
structure BackendValue where
  ip : List Nat := zero16
  serviceCount : Nat := 0
  services : List Nat := zero10
  waypointAddr : List Nat := zero16
  waypointPort : Nat := 0
deriving DecidableEq, Repr

/-- Endpoint table key: (serviceId, backendIndex). -/
abbrev EndpointKeyT := Nat × Nat

/-- Relationship index key: (workloadId, serviceId). -/
abbrev RelKey := Nat × Nat

/-- The processor state: the four packet-path tables, the hash-name
mapping, the out-of-order buffer, the resource caches, the startup
mode flag and the fault schedule for table mutations. -/
structure St where
  hashStrToNum : List (String × Nat)
  hashNextId : Nat
  endpointsByService : List (String × List String)
  frontend : List (List Nat × Nat)
  service : List (Nat × ServiceValue)
  endpoint : List (EndpointKeyT × Nat)
  backend : List (Nat × BackendValue)
  relationship : List (RelKey × Nat)
  workloadCache : List (String × Workload)
  serviceCache : List (String × Service)
  startType : StartType
  faults : List Bool
  failedWrites : Nat
deriving DecidableEq, Repr

/-! ## Table primitives

Modelled from the spec (§4.2); the bpfcache wrappers are not under
src.  Update is insert-or-replace, delete removes the key when
present, lookup is a pure point query.  A mutating operation consumes
one entry of the fault schedule and fails when that entry is true. -/

/-- Run one table mutation under the fault schedule: on a true head
the mutation fails (schedule consumed, failedWrites incremented),
otherwise the state mutator is applied. -/
def tableWrite (m : St → St) (s : St) : St × Option Err :=
  match s.faults with
  | true :: rest => ({ s with faults := rest, failedWrites := s.failedWrites + 1 }, some Err.writeErr)
  | false :: rest => (m { s with faults := rest }, none)
  | [] => (m s, none)

def frontendUpdate (ip : List Nat) (v : Nat) (s : St) : St × Option Err :=
  tableWrite (fun s => { s with frontend := aupdate ip v s.frontend }) s

def frontendDelete (ip : List Nat) (s : St) : St × Option Err :=
  tableWrite (fun s => { s with frontend := aremove ip s.frontend }) s

def frontendLookup (ip : List Nat) (s : St) : Option Nat := alookup ip s.frontend

def backendUpdate (uid : Nat) (v : BackendValue) (s : St) : St × Option Err :=
  tableWrite (fun s => { s with backend := aupdate uid v s.backend }) s

def backendDelete (uid : Nat) (s : St) : St × Option Err :=
  tableWrite (fun s => { s with backend := aremove uid s.backend }) s

def backendLookup (uid : Nat) (s : St) : Option BackendValue := alookup uid s.backend

def serviceUpdate (sid : Nat) (v : ServiceValue) (s : St) : St × Option Err :=
  tableWrite (fun s => { s with service := aupdate sid v s.service }) s

def serviceDelete (sid : Nat) (s : St) : St × Option Err :=
  tableWrite (fun s => { s with service := aremove sid s.service }) s

def serviceLookup (sid : Nat) (s : St) : Option ServiceValue := alookup sid s.service

def endpointUpdate (ek : EndpointKeyT) (uid : Nat) (s : St) : St × Option Err :=
  tableWrite (fun s => { s with endpoint := aupdate ek uid s.endpoint }) s

def endpointDelete (ek : EndpointKeyT) (s : St) : St × Option Err :=
  tableWrite (fun s => { s with endpoint := aremove ek s.endpoint }) s

def endpointLookup (ek : EndpointKeyT) (s : St) : Option Nat := alookup ek s.endpoint

/-- Modelled from the spec (§4.2): find endpoints by backendUid — all
(serviceId, backendIndex) whose value equals the given uid. -/
def endpointIterFindKey (uid : Nat) (s : St) : List EndpointKeyT :=
  (s.endpoint.filter (fun p => p.2 = uid)).map Prod.fst

/-- Modelled from the spec (§4.2): find frontends by upstreamId — all
ip keys whose value equals the given id. -/
def frontendIterFindKey (id : Nat) (s : St) : List (List Nat) :=
  (s.frontend.filter (fun p => p.2 = id)).map Prod.fst

/-! ## HashName

Modelled from the spec (§4.1); the HashName component is not under
src.  strToNum returns the existing id when present and otherwise
allocates a fresh one (the spec admits a monotonic counter); delete
removes the mapping.  Persistence failures never affect the in-memory
assignment and are not modelled. -/

def strToNum (name : String) (s : St) : Nat × St :=
  match alookup name s.hashStrToNum with
  | some id => (id, s)
  | none =>
      (s.hashNextId,
        { s with hashStrToNum := aupdate name s.hashNextId s.hashStrToNum,
                 hashNextId := s.hashNextId + 1 })

def hashDelete (name : String) (s : St) : St :=
  { s with hashStrToNum := aremove name s.hashStrToNum }

/-! ## Resource caches

Modelled from the spec (§4.3); pkg/controller/workload/cache is not
under src. -/

def getWorkloadByUid (uid : String) (s : St) : Option Workload := alookup uid s.workloadCache

def deleteWorkloadCache (uid : String) (s : St) : St :=
  { s with workloadCache := aremove uid s.workloadCache }

/-- Modelled from the spec (§4.3): returns (deletedServices,
newServices), the two sides of the set difference between the previous
service membership of the uid and the new one; a first-seen workload
yields (∅, all current services). -/
def addOrUpdateWorkload (w : Workload) (s : St) : (List String × List String) × St :=
  let prev : List String :=
    match alookup w.uid s.workloadCache with
    | some old => old.services
    | none => []
  let deleted := prev.filter (fun n => ¬ w.services.contains n)
  let fresh := w.services.filter (fun n => ¬ prev.contains n)
  ((deleted, fresh), { s with workloadCache := aupdate w.uid w s.workloadCache })

def getService (name : String) (s : St) : Option Service := alookup name s.serviceCache

def deleteServiceCache (name : String) (s : St) : St :=
  { s with serviceCache := aremove name s.serviceCache }

def addOrUpdateService (svc : Service) (s : St) : St :=
  { s with serviceCache := aupdate svc.resourceName svc s.serviceCache }

def updateRelationShipCache (workloadId serviceId relationId : Nat) (s : St) : St :=
  { s with relationship := aupdate (workloadId, serviceId) relationId s.relationship }

/-- Modelled from the spec (§4.3): deleteRelationShip(serviceId,
backendIndex) removes the entries binding that endpoint slot. -/
def deleteRelationShipCache (serviceId relationId : Nat) (s : St) : St :=
  { s with relationship :=
      s.relationship.filter (fun p => ¬ (p.1.2 = serviceId ∧ p.2 = relationId)) }

def getRelationShip (workloadId serviceId : Nat) (s : St) : Option Nat :=
  alookup (workloadId, serviceId) s.relationship

/-! ## Byte-level helpers

Modelled from the spec (§3, §6); pkg/nets is not under src.  An
address occupies the low bytes of the 16-byte IP field, zero
elsewhere; multi-byte ports are stored big-endian (byte-swap of the
low 16 bits). -/

def copyIpByteFromSlice (src : List Nat) : List Nat :=
  (src ++ zero16).take 16

def convertPortToBigEndian (p : Nat) : Nat :=
  (p % 256) * 256 + (p / 256) % 256

/-- uint32 truncation. -/
def mod32 (n : Nat) : Nat := n % 4294967296

/-! ## Processor functions

Each definition below translates the Go function of the same name in
pkg/controller/workload/workload_processor.go; telemetry calls and
logging are omitted (external collaborators with no table effect). -/

/-- deletePodFrontendData: look up the Backend row; when found, delete
the Frontend row keyed by the IP stored there.  A failed lookup is
silently ignored (returns nil). -/
def deletePodFrontendData (uid : Nat) (s : St) : St × Option Err :=
  match backendLookup uid s with
  | some bv => frontendDelete bv.ip s
  | none => (s, none)

/-- storePodFrontendData: write a Frontend row for the address
pointing at the workload's uid. -/
def storePodFrontendData (uid : Nat) (ip : List Nat) (s : St) : St × Option Err :=
  frontendUpdate (copyIpByteFromSlice ip) uid s

/-- updateRelationShipWithWorkloadAndService: write the Endpoint row
(serviceId, relationId) → workloadId, then update the relationship
index. -/
def updateRelationShipWithWorkloadAndService (workloadId serviceId relationId : Nat)
    (s : St) : St × Option Err :=
  match endpointUpdate (serviceId, relationId) workloadId s with
  | (s1, some e) => (s1, some e)
  | (s1, none) => (updateRelationShipCache workloadId serviceId relationId s1, none)

/-- deleteRelationShipWithWorkloadAndService: delete the Endpoint row
(serviceId, relationId), then delete the relationship entry. -/
def deleteRelationShipWithWorkloadAndService (serviceId relationId : Nat)
    (s : St) : St × Option Err :=
  match endpointDelete (serviceId, relationId) s with
  | (s1, some e) => (s1, some e)
  | (s1, none) => (deleteRelationShipCache serviceId relationId s1, none)

/-- Body of the deleteEndpointRecords loop for one endpoint key: the
densification step.  Look up the service; when present, move the
last-indexed endpoint into the removed slot, delete the last slot and
decrement the count; when the service or the last slot is absent,
fall back to a direct delete. -/
def deleteEndpointOne (ek : EndpointKeyT) (s : St) : St × Option Err :=
  match serviceLookup ek.1 s with
  | some sv =>
      match endpointLookup (ek.1, sv.endpointCount) s with
      | some lastVal =>
          match updateRelationShipWithWorkloadAndService lastVal ek.1 ek.2 s with
          | (s1, some e) => (s1, some e)
          | (s1, none) =>
              match endpointDelete (ek.1, sv.endpointCount) s1 with
              | (s2, some e) => (s2, some e)
              | (s2, none) =>
                  let s3 := deleteRelationShipCache ek.1 ek.2 s2
                  serviceUpdate ek.1 { sv with endpointCount := mod32 (sv.endpointCount + 4294967295) } s3
      | none => deleteRelationShipWithWorkloadAndService ek.1 ek.2 s
  | none => deleteRelationShipWithWorkloadAndService ek.1 ek.2 s

/-- deleteEndpointRecords: run the densification step over the given
endpoint keys, aborting on the first error. -/
def deleteEndpointRecords : List EndpointKeyT → St → St × Option Err
  | [], s => (s, none)
  | ek :: rest, s =>
      match deleteEndpointOne ek s with
      | (s1, some e) => (s1, some e)
      | (s1, none) => deleteEndpointRecords rest s1

/-- removeWorkloadFromBpfMap: delete the Frontend row recorded in the
Backend row, densify away every Endpoint row referencing the uid,
delete the Backend row, delete the HashName entry. -/
def removeWorkloadFromBpfMap (uid : String) (s : St) : St × Option Err :=
  let p := strToNum uid s
  let backendUid := p.1
  match deletePodFrontendData backendUid p.2 with
  | (s1, some e) => (s1, some e)
  | (s1, none) =>
      let eks := endpointIterFindKey backendUid s1
      match (if eks.length ≠ 0 then deleteEndpointRecords eks s1 else (s1, none)) with
      | (s2, some e) => (s2, some e)
      | (s2, none) =>
          match backendDelete backendUid s2 with
          | (s3, some e) => (s3, some e)
          | (s3, none) => (hashDelete uid s3, none)

/-- removeWorkloadResource: per removed uid, drop the cache record and
remove the workload from the tables, aborting on the first error. -/
def removeWorkloadResource : List String → St → St × Option Err
  | [], s => (s, none)
  | uid :: rest, s =>
      match removeWorkloadFromBpfMap uid (deleteWorkloadCache uid s) with
      | (s1, some e) => (s1, some e)
      | (s1, none) => removeWorkloadResource rest s1

/-- deleteFrontendData: delete every Frontend row whose upstreamId is
the given id. -/
def deleteFrontendDataLoop : List (List Nat) → St → St × Option Err
  | [], s => (s, none)
  | fk :: rest, s =>
      match frontendDelete fk s with
      | (s1, some e) => (s1, some e)
      | (s1, none) => deleteFrontendDataLoop rest s1

def deleteFrontendData (id : Nat) (s : St) : St × Option Err :=
  let fks := frontendIterFindKey id s
  if fks.length ≠ 0 then deleteFrontendDataLoop fks s else (s, none)

/-- Endpoint deletion loop of removeServiceResourceFromBpfMap: delete
rows (serviceId, i) for each listed index, aborting on error. -/
def endpointDeleteSeq (sid : Nat) : List Nat → St → St × Option Err
  | [], s => (s, none)
  | i :: rest, s =>
      match endpointDelete (sid, i) s with
      | (s1, some e) => (s1, some e)
      | (s1, none) => endpointDeleteSeq sid rest s1

/-- removeServiceResourceFromBpfMap: drop the cache record; when the
Service row exists, clear its Frontend rows, delete the Service row
and its Endpoint rows 1..endpointCount, then delete the HashName
entry.  A failure inside the block jumps past the HashName delete
(the goto in the source) and returns the error; a failed Service
lookup still deletes the HashName entry but returns the lookup
error. -/
def removeServiceResourceFromBpfMap (name : String) (s : St) : St × Option Err :=
  let s0 := deleteServiceCache name s
  let p := strToNum name s0
  let serviceId := p.1
  match serviceLookup serviceId p.2 with
  | some svDelete =>
      match deleteFrontendData serviceId p.2 with
      | (s2, some e) => (s2, some e)
      | (s2, none) =>
          match serviceDelete serviceId s2 with
          | (s3, some e) => (s3, some e)
          | (s3, none) =>
              match endpointDeleteSeq serviceId (List.range' 1 svDelete.endpointCount) s3 with
              | (s4, some e) => (s4, some e)
              | (s4, none) => (hashDelete name s4, none)
  | none => (hashDelete name p.2, some Err.lookupErr)

/-- removeServiceResource: per removed name, drop the cache record and
remove the service from the tables, aborting on the first error. -/
def removeServiceResource : List String → St → St × Option Err
  | [], s => (s, none)
  | name :: rest, s =>
      match removeServiceResourceFromBpfMap name (deleteServiceCache name s) with
      | (s1, some e) => (s1, some e)
      | (s1, none) => removeServiceResource rest s1

/-- storeEndpointWithService: increment the service's endpointCount,
write the Endpoint row at the new index, write the Service row, update
the relationship index. -/
def storeEndpointWithService (sid : Nat) (sv : ServiceValue) (uid : Nat)
    (s : St) : St × Option Err :=
  let newCount := mod32 (sv.endpointCount + 1)
  match endpointUpdate (sid, newCount) uid s with
  | (s1, some e) => (s1, some e)
  | (s1, none) =>
      match serviceUpdate sid { sv with endpointCount := newCount } s1 with
      | (s2, some e) => (s2, some e)
      | (s2, none) => (updateRelationShipCache uid sid newCount s2, none)

/-- storeServiceEndpoint: buffer the workload uid under the service
name in endpointsByService (a set; duplicate inserts are no-ops).  The
list order records insertion order; the Go map's iteration order over
this set is unspecified. -/
def storeServiceEndpoint (workloadUid : String) (serviceName : String) (s : St) : St :=
  let cur := (alookup serviceName s.endpointsByService).getD []
  let cur' := if cur.contains workloadUid then cur else cur ++ [workloadUid]
  { s with endpointsByService := aupdate serviceName cur' s.endpointsByService }

/-- Collection loop of deleteResidualServicesWithWorkload: resolve
each service name and collect the endpoint key recorded in the
relationship index, when present. -/
def collectResidualEks (wuid : Nat) : List String → List EndpointKeyT → St →
    List EndpointKeyT × St
  | [], eks, s => (eks, s)
  | n :: rest, eks, s =>
      let p := strToNum n s
      let eks' :=
        match getRelationShip wuid p.1 p.2 with
        | some relationId => eks ++ [(p.1, relationId)]
        | none => eks
      collectResidualEks wuid rest eks' p.2

/-- deleteResidualServicesWithWorkload: purge the endpoint slots the
workload held in the services it left. -/
def deleteResidualServicesWithWorkload (w : Workload) (services : List String)
    (s : St) : St × Option Err :=
  let p := strToNum w.uid s
  let q := collectResidualEks p.1 services [] p.2
  deleteEndpointRecords q.1 q.2

/-- Loop of addNewServicesWithWorkload over the new service names: a
live service gets a new endpoint bound; an absent one buffers the
membership. -/
def addNewServicesLoop (w : Workload) (buid : Nat) : List String → St → St × Option Err
  | [], s => (s, none)
  | n :: rest, s =>
      let p := strToNum n s
      match serviceLookup p.1 p.2 with
      | some sv =>
          match storeEndpointWithService p.1 sv buid p.2 with
          | (s1, some e) => (s1, some e)
          | (s1, none) => addNewServicesLoop w buid rest s1
      | none => addNewServicesLoop w buid rest (storeServiceEndpoint w.uid n p.2)

def addNewServicesWithWorkload (w : Workload) (newServices : List String)
    (s : St) : St × Option Err :=
  let p := strToNum w.uid s
  addNewServicesLoop w p.1 newServices p.2

/-- Service-membership loop of updateWorkload: fill the Backend row's
services array, stopping once the count reaches MaxServiceNum = 10
(the break after the increment in the source). -/
def updateWorkloadServices : List String → BackendValue → St → BackendValue × St
  | [], bv, s => (bv, s)
  | n :: rest, bv, s =>
      let p := strToNum n s
      let bv' := { bv with services := bv.services.set bv.serviceCount p.1,
                           serviceCount := bv.serviceCount + 1 }
      if bv'.serviceCount ≥ 10 then (bv', p.2)
      else updateWorkloadServices rest bv' p.2

/-- Address loop of updateWorkload: per address, overwrite the Backend
row's Ip field and re-write the row, then (for non-host-network
workloads) write the Frontend row for that address. -/
def updateWorkloadAddrs (uid : Nat) (networkMode : NetworkMode) :
    List (List Nat) → BackendValue → St → St × Option Err
  | [], _, s => (s, none)
  | ip :: rest, bv, s =>
      let bv' := { bv with ip := copyIpByteFromSlice ip }
      match backendUpdate uid bv' s with
      | (s1, some e) => (s1, some e)
      | (s1, none) =>
          if networkMode ≠ NetworkMode.hostNetwork then
            match storePodFrontendData uid ip s1 with
            | (s2, some e) => (s2, some e)
            | (s2, none) => updateWorkloadAddrs uid networkMode rest bv' s2
          else updateWorkloadAddrs uid networkMode rest bv' s1

/-- updateWorkload: build the Backend value (waypoint fields, bounded
service set) and run the per-address loop. -/
def updateWorkload (w : Workload) (s : St) : St × Option Err :=
  let p := strToNum w.uid s
  let bv0 : BackendValue := {}
  let bv1 :=
    match w.waypoint with
    | some wp => { bv0 with waypointAddr := copyIpByteFromSlice wp.address,
                            waypointPort := convertPortToBigEndian wp.hboneMtlsPort }
    | none => bv0
  let q := updateWorkloadServices w.services bv1 p.2
  updateWorkloadAddrs p.1 w.networkMode w.addresses q.1 q.2

/-- handleWorkload: diff the workload against the cache, purge
residual endpoints, bind or buffer the new memberships, then write the
Backend and Frontend rows. -/
def handleWorkload (w : Workload) (s : St) : St × Option Err :=
  let q := addOrUpdateWorkload w s
  let deletedServices := q.1.1
  let newServices := q.1.2
  match deleteResidualServicesWithWorkload w deletedServices q.2 with
  | (s1, some e) => (s1, some e)
  | (s1, none) =>
      match addNewServicesWithWorkload w newServices s1 with
      | (s2, some e) => (s2, some e)
      | (s2, none) => updateWorkload w s2

/-- strings.Contains(serviceName, "waypoint"). -/
def containsWaypointStr (s : String) : Bool :=
  decide ("waypoint".toList <:+: s.toList)

/-- Address loop of storeServiceFrontendData: one Frontend row per
service address, all pointing at the serviceId. -/
def storeServiceFrontendLoop (sid : Nat) : List (List Nat) → St → St × Option Err
  | [], s => (s, none)
  | a :: rest, s =>
      match frontendUpdate (copyIpByteFromSlice a) sid s with
      | (s1, some e) => (s1, some e)
      | (s1, none) => storeServiceFrontendLoop sid rest s1

def storeServiceFrontendData (sid : Nat) (svc : Service) (s : St) : St × Option Err :=
  storeServiceFrontendLoop sid svc.addresses s

/-- Port loop of storeServiceData: ports are stored big-endian up to
MaxPortNum = 10; a service whose name contains "waypoint" gets every
targetPort overridden with KmeshWaypointPort = 15019. -/
def setServicePortsLoop (serviceName : String) : List Port → Nat → ServiceValue → ServiceValue
  | [], _, nv => nv
  | port :: rest, i, nv =>
      if i ≥ 10 then nv
      else
        let sp := nv.servicePort.set i (convertPortToBigEndian port.servicePort)
        let tp :=
          if containsWaypointStr serviceName then
            nv.targetPort.set i (convertPortToBigEndian 15019)
          else
            nv.targetPort.set i (convertPortToBigEndian port.targetPort)
        setServicePortsLoop serviceName rest (i + 1) { nv with servicePort := sp, targetPort := tp }

/-- Drain loop of storeServiceData over the buffered workload uids:
endpointIndex starts at 0 and is pre-incremented, so indices 1, 2, …
are assigned in iteration order. -/
def drainEndpointLoop (sid : Nat) : List String → Nat → St → St × Option Err
  | [], _, s => (s, none)
  | u :: rest, idx, s =>
      let p := strToNum u s
      match endpointUpdate (sid, idx + 1) p.1 p.2 with
      | (s1, some e) => (s1, some e)
      | (s1, none) =>
          drainEndpointLoop sid rest (idx + 1) (updateRelationShipCache p.1 sid (idx + 1) s1)

/-- Delete of the endpointsByService buffer entry (a Go map delete,
not a table operation: it cannot fail). -/
def deleteEndpointsByService (serviceName : String) (s : St) : St :=
  { s with endpointsByService := aremove serviceName s.endpointsByService }

/-- storeServiceData.  The parameter order is the iteration order of
the Go range over the endpointsByService map entry: Go does not
specify it, so any permutation of the buffered set is an admissible
run, and it is passed explicitly here.  When the Service row already
exists its endpointCount is preserved and the buffer is not touched;
otherwise the buffered memberships (when any) are drained in the given
order and the buffer entry is deleted.  A failed final ServiceUpdate
is logged and swallowed in the source: the function still returns
nil. -/
def storeServiceData (serviceName : String) (waypoint : Option GatewayAddress)
    (ports : List Port) (order : List String) (s : St) : St × Option Err :=
  let p := strToNum serviceName s
  let sid := p.1
  let nv0 : ServiceValue := { lbPolicy := 0 }
  let nv1 :=
    match waypoint with
    | some wp => { nv0 with waypointAddr := copyIpByteFromSlice wp.address,
                            waypointPort := convertPortToBigEndian wp.hboneMtlsPort }
    | none => nv0
  let nv2 := setServicePortsLoop serviceName ports 0 nv1
  match serviceLookup sid p.2 with
  | some oldValue =>
      let q := serviceUpdate sid { nv2 with endpointCount := oldValue.endpointCount } p.2
      (q.1, none)
  | none =>
      match alookup serviceName p.2.endpointsByService with
      | some endpointCaches =>
          let nv3 := { nv2 with endpointCount := mod32 endpointCaches.length }
          match drainEndpointLoop sid order 0 p.2 with
          | (s1, some e) => (s1, some e)
          | (s1, none) =>
              let s2 := deleteEndpointsByService serviceName s1
              let q := serviceUpdate sid nv3 s2
              (q.1, none)
      | none =>
          let s2 := deleteEndpointsByService serviceName p.2
          let q := serviceUpdate sid nv2 s2
          (q.1, none)

/-- Port-15021 test of the waypoint guard in handleService. -/
def containsPort (svc : Service) (port : Nat) : Bool :=
  svc.ports.any (fun p => p.servicePort = port)

/-- Core of handleService after the waypoint guard: cache the service,
write its Frontend rows, then write the Service and Endpoint rows. -/
def handleServiceCore (svc : Service) (order : List String) (s : St) : St × Option Err :=
  let s0 := addOrUpdateService svc s
  let serviceName := svc.resourceName
  let p := strToNum serviceName s0
  match storeServiceFrontendData p.1 svc p.2 with
  | (s1, some e) => (s1, some e)
  | (s1, none) => storeServiceData serviceName svc.waypoint svc.ports order s1

/-- handleService.  When the service carries a waypoint, the guard
compares the waypoint address with service.Addresses[0]: on a service
with no addresses this Go index expression panics, modelled by the
panicErr result.  When the waypoint address equals the first service
address or the service exposes servicePort 15021, the waypoint is
stripped before storing. -/
def handleService (svc : Service) (order : List String) (s : St) : St × Option Err :=
  match svc.waypoint with
  | some wp =>
      match svc.addresses with
      | [] => (s, some Err.panicErr)
      | a0 :: _ =>
          let svc' :=
            if wp.address = a0 ∨ containsPort svc 15021 then
              { svc with waypoint := none }
            else svc
          handleServiceCore svc' order s
  | none => handleServiceCore svc order s

/-- Slash count of strings.Count(res, "/"). -/
def slashCount (res : String) : Nat :=
  (res.toList.filter (fun c => c = '/')).length

/-- Classification loop of handleRemovedAddresses: more than two
slashes means a workload resource name, anything else a service
name. -/
def classifyRemoved (removed : List String) : List String × List String :=
  (removed.filter (fun r => slashCount r > 2),
   removed.filter (fun r => ¬ slashCount r > 2))

/-- handleRemovedAddresses: split the removed names, remove the
workloads then the services; errors of both passes are logged and
swallowed (the function always returns nil). -/
def handleRemovedAddresses (removed : List String) (s : St) : St × Option Err :=
  let names := classifyRemoved removed
  let q1 := removeWorkloadResource names.1 s
  let q2 := removeServiceResource names.2 q1.1
  (q2.1, none)

/-- A parsed Address resource: a workload or a service (carrying the
drain order the runtime would use for its buffered endpoints). -/
inductive AddressEvent
  | workloadEvt (w : Workload)
  | serviceEvt (svc : Service) (order : List String)

def handleAddressEvent (ev : AddressEvent) (s : St) : St × Option Err :=
  match ev with
  | .workloadEvt w => handleWorkload w s
  | .serviceEvt svc order => handleService svc order s

/-- Resource loop of handleAddressTypeResponse: the per-resource error
is recorded but does not stop the loop; the error of the last resource
is the one returned. -/
def processResources : List AddressEvent → St → St × Option Err
  | [], s => (s, none)
  | ev :: rest, s =>
      let q := handleAddressEvent ev s
      match rest with
      | [] => q
      | _ => processResources rest q.1

/-- Body of the compareWorkloadAndServiceWithHashName loop for one
hash-name entry: an entry with neither a cached Workload nor a cached
Service is probed in the Backend table and then in the Service table,
and removed through the corresponding removal path; errors are logged
and swallowed. -/
def compareStep (str : String) (num : Nat) (s : St) : St :=
  if (getWorkloadByUid str s).isNone && (getService str s).isNone then
    match backendLookup num s with
    | some _ => (removeWorkloadFromBpfMap str s).1
    | none =>
        match serviceLookup num s with
        | some _ => (removeServiceResourceFromBpfMap str s).1
        | none => s
  else s

/-- Loop of compareWorkloadAndServiceWithHashName over the hash-name
entries (one admissible iteration order of the Go map range). -/
def compareLoop : List (String × Nat) → St → St
  | [], s => s
  | (str, num) :: rest, s => compareLoop rest (compareStep str num s)

/-- compareWorkloadAndServiceWithHashName: runs only when the start
type is Restart, and first resets it to Normal, so the reconciliation
executes once per process lifetime. -/
def compareWorkloadAndServiceWithHashName (s : St) : St :=
  if s.startType = StartType.Restart then
    compareLoop s.hashStrToNum { s with startType := StartType.Normal }
  else s

/-- handleAddressTypeResponse: per-resource upserts in received order,
then the removals, then the post-restart reconciliation; the returned
error is the last per-resource error, removal errors being logged
only. -/
def handleAddressTypeResponse (resources : List AddressEvent) (removed : List String)
    (s : St) : St × Option Err :=
  let q := processResources resources s
  let q2 := handleRemovedAddresses removed q.1
  (compareWorkloadAndServiceWithHashName q2.1, q.2)

/-- The initial processor state: empty tables, empty caches, ids
allocated from 1, Normal start type, fault-free schedule. -/
def emptySt : St :=
  { hashStrToNum := [], hashNextId := 1, endpointsByService := [], frontend := [],
    service := [], endpoint := [], backend := [], relationship := [], workloadCache := [],
    serviceCache := [], startType := StartType.Normal, faults := [], failedWrites := 0 }

/-! ## Fault-free reductions

Under an empty fault schedule every table mutation succeeds, and the
schedule stays empty. -/

theorem tableWrite_nofault (m : St → St) (s : St) (h : s.faults = []) :
    tableWrite m s = (m s, none) := by
  unfold tableWrite
  rw [h]

theorem frontendUpdate_nofault (ip : List Nat) (v : Nat) (s : St) (h : s.faults = []) :
    frontendUpdate ip v s = ({ s with frontend := aupdate ip v s.frontend }, none) :=
  tableWrite_nofault _ s h

theorem frontendDelete_nofault (ip : List Nat) (s : St) (h : s.faults = []) :
    frontendDelete ip s = ({ s with frontend := aremove ip s.frontend }, none) :=
  tableWrite_nofault _ s h

theorem backendUpdate_nofault (uid : Nat) (v : BackendValue) (s : St) (h : s.faults = []) :
    backendUpdate uid v s = ({ s with backend := aupdate uid v s.backend }, none) :=
  tableWrite_nofault _ s h

theorem backendDelete_nofault (uid : Nat) (s : St) (h : s.faults = []) :
    backendDelete uid s = ({ s with backend := aremove uid s.backend }, none) :=
  tableWrite_nofault _ s h

theorem serviceUpdate_nofault (sid : Nat) (v : ServiceValue) (s : St) (h : s.faults = []) :
    serviceUpdate sid v s = ({ s with service := aupdate sid v s.service }, none) :=
  tableWrite_nofault _ s h

theorem serviceDelete_nofault (sid : Nat) (s : St) (h : s.faults = []) :
    serviceDelete sid s = ({ s with service := aremove sid s.service }, none) :=
  tableWrite_nofault _ s h

theorem endpointUpdate_nofault (ek : EndpointKeyT) (uid : Nat) (s : St) (h : s.faults = []) :
    endpointUpdate ek uid s = ({ s with endpoint := aupdate ek uid s.endpoint }, none) :=
  tableWrite_nofault _ s h

theorem endpointDelete_nofault (ek : EndpointKeyT) (s : St) (h : s.faults = []) :
    endpointDelete ek s = ({ s with endpoint := aremove ek s.endpoint }, none) :=
  tableWrite_nofault _ s h

/-! ## Small frame lemmas -/

theorem aremove_aupdate_self {κ α : Type} [DecidableEq κ] (k : κ) (v : α) (l : List (κ × α)) :
    aremove k (aupdate k v l) = aremove k l := by
  simp [aupdate, aremove, List.filter_filter]

theorem strToNum_of_mem {name : String} {id : Nat} {s : St}
    (h : alookup name s.hashStrToNum = some id) : strToNum name s = (id, s) := by
  unfold strToNum
  rw [h]

theorem strToNum_service (name : String) (s : St) : (strToNum name s).2.service = s.service := by
  unfold strToNum
  cases alookup name s.hashStrToNum <;> rfl

theorem strToNum_endpoint (name : String) (s : St) : (strToNum name s).2.endpoint = s.endpoint := by
  unfold strToNum
  cases alookup name s.hashStrToNum <;> rfl

theorem strToNum_frontend (name : String) (s : St) : (strToNum name s).2.frontend = s.frontend := by
  unfold strToNum
  cases alookup name s.hashStrToNum <;> rfl

theorem strToNum_backend (name : String) (s : St) : (strToNum name s).2.backend = s.backend := by
  unfold strToNum
  cases alookup name s.hashStrToNum <;> rfl

theorem strToNum_workloadCache (name : String) (s : St) :
    (strToNum name s).2.workloadCache = s.workloadCache := by
  unfold strToNum
  cases alookup name s.hashStrToNum <;> rfl

theorem strToNum_serviceCache (name : String) (s : St) :
    (strToNum name s).2.serviceCache = s.serviceCache := by
  unfold strToNum
  cases alookup name s.hashStrToNum <;> rfl

theorem strToNum_endpointsByService (name : String) (s : St) :
    (strToNum name s).2.endpointsByService = s.endpointsByService := by
  unfold strToNum
  cases alookup name s.hashStrToNum <;> rfl

theorem strToNum_relationship (name : String) (s : St) :
    (strToNum name s).2.relationship = s.relationship := by
  unfold strToNum
  cases alookup name s.hashStrToNum <;> rfl

theorem strToNum_faults (name : String) (s : St) : (strToNum name s).2.faults = s.faults := by
  unfold strToNum
  cases alookup name s.hashStrToNum <;> rfl

theorem strToNum_failedWrites (name : String) (s : St) :
    (strToNum name s).2.failedWrites = s.failedWrites := by
  unfold strToNum
  cases alookup name s.hashStrToNum <;> rfl

theorem strToNum_startType (name : String) (s : St) :
    (strToNum name s).2.startType = s.startType := by
  unfold strToNum
  cases alookup name s.hashStrToNum <;> rfl

/-- The hash mapping after strToNum: the queried name is bound to the
returned id, every other name is unchanged. -/
theorem strToNum_hash_lookup (name n : String) (s : St) :
    alookup n (strToNum name s).2.hashStrToNum =
      if name = n then some (strToNum name s).1 else alookup n s.hashStrToNum := by
  unfold strToNum
  rcases h : alookup name s.hashStrToNum with _ | id
  · simp [alookup_aupdate]
  · by_cases hn : name = n
    · subst hn
      simp [h]
    · simp [hn]

/-! ## Claim C9 -/

/-- C9: handleService is not total at the public interface: on a
Service whose waypoint is non-nil but whose address list is empty, the
waypoint self-loop guard indexes service.Addresses[0] without a bounds
check and the Go code panics (modelled by the panicErr result). -/
theorem handleService_panics_without_addresses :
    handleService
      { ns := "n", hostname := "h", addresses := [], ports := [],
        waypoint := some { address := [1, 2, 3, 4], hboneMtlsPort := 100 } }
      [] emptySt = (emptySt, some Err.panicErr) := rfl

/-! ## Claim C7

The source routes every removed name with more than two slashes to the
workload batch and everything else — zero, one or two slashes — to the
service batch, so the claim's characterisation of service removal as
exactly one slash fails on slash counts 0 and 2. -/

/-- C7 counterexample: the name "abc" contains zero '/' characters,
yet handleRemovedAddresses processes it as a service removal — the
Service row stored under its hash id is deleted. -/
theorem handleRemovedAddresses_zero_slash_counterexample :
    slashCount "abc" = 0 ∧
    "abc" ∈ (classifyRemoved ["abc"]).2 ∧
    (handleRemovedAddresses ["abc"]
        { emptySt with hashStrToNum := [("abc", 3)], hashNextId := 4,
                       service := [(3, { endpointCount := 0 })] }).1.service = [] := by
  decide

/-- C7 amended: a removed resource name is processed as a workload
removal iff it contains more than two '/' characters, and as a service
removal iff it contains at most two '/' characters (not only exactly
one). -/
theorem handleRemovedAddresses_classification (res : String) (removed : List String) :
    (res ∈ (classifyRemoved removed).1 ↔ res ∈ removed ∧ slashCount res > 2) ∧
    (res ∈ (classifyRemoved removed).2 ↔ res ∈ removed ∧ ¬ slashCount res > 2) := by
  constructor <;> simp [classifyRemoved, List.mem_filter]

/-! ## Claim C10 -/

/-- C10: when a service name is removed but no Service row exists for
its id, removeServiceResourceFromBpfMap still deletes the HashName
entry yet returns the non-nil lookup error, so removeServiceResource
aborts, leaving the tables — and every remaining name of the batch —
untouched. -/
theorem removeServiceResource_aborts_on_missing_service_row
    (name : String) (rest : List String) (s : St)
    (h : serviceLookup (strToNum name s).1 s = none) :
    (removeServiceResource (name :: rest) s).2 = some Err.lookupErr ∧
    alookup name (removeServiceResource (name :: rest) s).1.hashStrToNum = none ∧
    (removeServiceResource (name :: rest) s).1.service = s.service ∧
    (removeServiceResource (name :: rest) s).1.endpoint = s.endpoint ∧
    (removeServiceResource (name :: rest) s).1.frontend = s.frontend ∧
    (removeServiceResource (name :: rest) s).1.backend = s.backend ∧
    (removeServiceResource (name :: rest) s).1.workloadCache = s.workloadCache ∧
    (removeServiceResource (name :: rest) s).1.serviceCache = aremove name s.serviceCache := by
  rcases hm : alookup name s.hashStrToNum with _ | id
  · simp only [strToNum, hm, serviceLookup] at h
    simp [removeServiceResource, removeServiceResourceFromBpfMap, deleteServiceCache,
      strToNum, hm, serviceLookup, h, hashDelete, alookup_aremove_self,
      aremove_aupdate_self, aremove_aremove_self]
  · simp only [strToNum, hm, serviceLookup] at h
    simp [removeServiceResource, removeServiceResourceFromBpfMap, deleteServiceCache,
      strToNum, hm, serviceLookup, h, hashDelete, alookup_aremove_self,
      aremove_aupdate_self, aremove_aremove_self]

def stC10 : St := { emptySt with hashStrToNum := [("ns/gone", 5)], hashNextId := 6 }

theorem removeServiceResource_aborts_on_missing_service_row_witness :
    serviceLookup (strToNum "ns/gone" stC10).1 stC10 = none ∧
    ((removeServiceResource ("ns/gone" :: ["ns/other"]) stC10).2 = some Err.lookupErr ∧
     alookup "ns/gone" (removeServiceResource ("ns/gone" :: ["ns/other"]) stC10).1.hashStrToNum = none ∧
     (removeServiceResource ("ns/gone" :: ["ns/other"]) stC10).1.service = stC10.service ∧
     (removeServiceResource ("ns/gone" :: ["ns/other"]) stC10).1.endpoint = stC10.endpoint ∧
     (removeServiceResource ("ns/gone" :: ["ns/other"]) stC10).1.frontend = stC10.frontend ∧
     (removeServiceResource ("ns/gone" :: ["ns/other"]) stC10).1.backend = stC10.backend ∧
     (removeServiceResource ("ns/gone" :: ["ns/other"]) stC10).1.workloadCache = stC10.workloadCache ∧
     (removeServiceResource ("ns/gone" :: ["ns/other"]) stC10).1.serviceCache =
       aremove "ns/gone" stC10.serviceCache) :=
  ⟨by decide,
   removeServiceResource_aborts_on_missing_service_row "ns/gone" ["ns/other"] stC10 (by decide)⟩

/-! ## Claim C1 — counterexample

Workload removal recovers a single IP from the Backend row — the one
written by the last iteration of the per-address loop — and deletes
only the Frontend row keyed by that IP.  For a workload with several
addresses, the Frontend rows of the earlier addresses survive the
removal. -/

def wC1 : Workload :=
  { uid := "w", addresses := [[10, 0, 0, 1], [10, 0, 0, 2]], services := [],
    waypoint := none, networkMode := .standard }

def stC1 : St := (handleWorkload wC1 emptySt).1

/-- C1 counterexample: a workload with two addresses is upserted and
then removed; the removal completes (no error) and indeed leaves no
Backend or Endpoint row, but the Frontend row written for the first
address still references HashName of the workload's uid (= 1). -/
theorem removeWorkload_leaves_first_address_frontend_row :
    strToNum "w" stC1 = (1, stC1) ∧
    (removeWorkloadResource ["w"] stC1).2 = none ∧
    frontendLookup (copyIpByteFromSlice [10, 0, 0, 1]) (removeWorkloadResource ["w"] stC1).1 =
      some 1 := by
  decide

/-! ## Claim C3 — counterexample

The drain of endpointsByService in storeServiceData iterates a Go map;
Go's map iteration order is unspecified, and the order parameter of
storeServiceData makes that choice explicit.  Two runs over the same
buffered set with different admissible iteration orders assign the
backendIndex values to different workloads. -/

def stC3 : St :=
  { emptySt with endpointsByService := [("ns/svc", ["u1", "u2"])],
                 hashStrToNum := [("u1", 1), ("u2", 2)], hashNextId := 3 }

/-- C3 counterexample: both iteration orders are permutations of the
buffered set for service "ns/svc", yet the two runs of the first
service upsert produce different Endpoint rows at backendIndex 1, so
the drain is not deterministic over the buffered set alone. -/
theorem storeServiceData_drain_order_dependent :
    ["u1", "u2"].Perm ((alookup "ns/svc" stC3.endpointsByService).getD []) ∧
    ["u2", "u1"].Perm ((alookup "ns/svc" stC3.endpointsByService).getD []) ∧
    endpointLookup ((strToNum "ns/svc" stC3).1, 1)
        (storeServiceData "ns/svc" none [] ["u1", "u2"] stC3).1 = some 1 ∧
    endpointLookup ((strToNum "ns/svc" stC3).1, 1)
        (storeServiceData "ns/svc" none [] ["u2", "u1"] stC3).1 = some 2 := by
  refine ⟨by decide, by decide, by decide, by decide⟩

/-! ## Claim C5 — counterexample

storeServiceData's final ServiceUpdate logs a failure and falls
through to return nil, so a failed table write during handleService is
not always returned to the caller. -/

def svcC5 : Service :=
  { ns := "ns", hostname := "svc", addresses := [[10, 1, 0, 1]], ports := [],
    waypoint := none }

def stC5 : St := { emptySt with faults := [false, true] }

/-- C5 counterexample: with a fault schedule under which the first
write (the Frontend row) succeeds and the second (the final Service
row update in storeServiceData) fails, handleService reports one
failed table write yet returns nil — the failure is not surfaced to
the caller. -/
theorem handleService_swallows_final_service_update_failure :
    (handleService svcC5 [] stC5).2 = none ∧
    (handleService svcC5 [] stC5).1.failedWrites = 1 ∧
    serviceLookup (strToNum "ns/svc" stC5).1 (handleService svcC5 [] stC5).1 = none := by
  decide

/-! ## Existential forms of the fault-free reductions

These keep the successor state abstract (with its defining equation as
a separate conjunct), which lets proofs chain table operations without
rewriting inside record literals. -/

theorem frontendUpdate_ok (ip : List Nat) (v : Nat) (s : St) (h : s.faults = []) :
    ∃ s', frontendUpdate ip v s = (s', none) ∧
      s' = { s with frontend := aupdate ip v s.frontend } :=
  ⟨_, frontendUpdate_nofault ip v s h, rfl⟩

theorem frontendDelete_ok (ip : List Nat) (s : St) (h : s.faults = []) :
    ∃ s', frontendDelete ip s = (s', none) ∧
      s' = { s with frontend := aremove ip s.frontend } :=
  ⟨_, frontendDelete_nofault ip s h, rfl⟩

theorem backendUpdate_ok (uid : Nat) (v : BackendValue) (s : St) (h : s.faults = []) :
    ∃ s', backendUpdate uid v s = (s', none) ∧
      s' = { s with backend := aupdate uid v s.backend } :=
  ⟨_, backendUpdate_nofault uid v s h, rfl⟩

theorem backendDelete_ok (uid : Nat) (s : St) (h : s.faults = []) :
    ∃ s', backendDelete uid s = (s', none) ∧
      s' = { s with backend := aremove uid s.backend } :=
  ⟨_, backendDelete_nofault uid s h, rfl⟩

theorem serviceUpdate_ok (sid : Nat) (v : ServiceValue) (s : St) (h : s.faults = []) :
    ∃ s', serviceUpdate sid v s = (s', none) ∧
      s' = { s with service := aupdate sid v s.service } :=
  ⟨_, serviceUpdate_nofault sid v s h, rfl⟩

theorem serviceDelete_ok (sid : Nat) (s : St) (h : s.faults = []) :
    ∃ s', serviceDelete sid s = (s', none) ∧
      s' = { s with service := aremove sid s.service } :=
  ⟨_, serviceDelete_nofault sid s h, rfl⟩

theorem endpointUpdate_ok (ek : EndpointKeyT) (uid : Nat) (s : St) (h : s.faults = []) :
    ∃ s', endpointUpdate ek uid s = (s', none) ∧
      s' = { s with endpoint := aupdate ek uid s.endpoint } :=
  ⟨_, endpointUpdate_nofault ek uid s h, rfl⟩

theorem endpointDelete_ok (ek : EndpointKeyT) (s : St) (h : s.faults = []) :
    ∃ s', endpointDelete ek s = (s', none) ∧
      s' = { s with endpoint := aremove ek s.endpoint } :=
  ⟨_, endpointDelete_nofault ek s h, rfl⟩

/-! ## Claim C8 -/

/-- The service-membership loop of updateWorkload changes only the
hash-name fields of the state. -/
theorem updateWorkloadServices_frame :
    ∀ (ns : List String) (bv : BackendValue) (s : St),
    (updateWorkloadServices ns bv s).2.faults = s.faults ∧
    (updateWorkloadServices ns bv s).2.frontend = s.frontend ∧
    (updateWorkloadServices ns bv s).2.backend = s.backend := by
  intro ns
  induction ns with
  | nil => intro bv s; exact ⟨rfl, rfl, rfl⟩
  | cons n rest ih =>
    intro bv s
    simp only [updateWorkloadServices]
    by_cases hc : bv.serviceCount + 1 ≥ 10
    · simp only [if_pos hc]
      exact ⟨strToNum_faults n s, strToNum_frontend n s, strToNum_backend n s⟩
    · simp only [if_neg hc]
      obtain ⟨h1, h2, h3⟩ := ih _ (strToNum n s).2
      exact ⟨h1.trans (strToNum_faults n s), h2.trans (strToNum_frontend n s),
             h3.trans (strToNum_backend n s)⟩

/-- Behaviour of the per-address loop of updateWorkload under a
fault-free schedule: it succeeds; each address (for a non-host-network
workload) has a Frontend row pointing at the uid; the Backend row
carries the last address written, overwriting the earlier ones. -/
theorem updateWorkloadAddrs_spec (uid : Nat) (nm : NetworkMode) :
    ∀ (ips : List (List Nat)) (bv : BackendValue) (s : St), s.faults = [] →
    ∃ s', updateWorkloadAddrs uid nm ips bv s = (s', none) ∧ s'.faults = [] ∧
      (∀ k, frontendLookup k s' = frontendLookup k s ∨ frontendLookup k s' = some uid) ∧
      (nm ≠ NetworkMode.hostNetwork →
        ∀ ip ∈ ips, frontendLookup (copyIpByteFromSlice ip) s' = some uid) ∧
      (∀ lip, ips.getLast? = some lip →
        backendLookup uid s' = some { bv with ip := copyIpByteFromSlice lip }) ∧
      (ips = [] → s' = s) := by
  intro ips
  induction ips with
  | nil =>
    intro bv s hf
    exact ⟨s, rfl, hf, fun k => Or.inl rfl, fun _ ip h => absurd h (List.not_mem_nil ip),
           fun lip h => by simp at h, fun _ => rfl⟩
  | cons ip rest ih =>
    intro bv s hf
    obtain ⟨s1, he1, hd1⟩ := backendUpdate_ok uid { bv with ip := copyIpByteFromSlice ip } s hf
    have hf1 : s1.faults = [] := by rw [hd1]; exact hf
    have hfr1 : s1.frontend = s.frontend := by rw [hd1]
    have hbk1 : s1.backend = aupdate uid { bv with ip := copyIpByteFromSlice ip } s.backend := by
      rw [hd1]
    simp only [updateWorkloadAddrs, he1]
    by_cases hnm : nm ≠ NetworkMode.hostNetwork
    · rw [if_pos hnm]
      obtain ⟨s2, he2, hd2⟩ := frontendUpdate_ok (copyIpByteFromSlice ip) uid s1 hf1
      have hf2 : s2.faults = [] := by rw [hd2]; exact hf1
      have hfr2 : s2.frontend = aupdate (copyIpByteFromSlice ip) uid s.frontend := by
        rw [hd2, hfr1]
      have hbk2 : s2.backend = aupdate uid { bv with ip := copyIpByteFromSlice ip } s.backend := by
        rw [hd2, hbk1]
      simp only [storePodFrontendData, he2]
      obtain ⟨s', hrun, hf', hframe, hfront, hback, hnil⟩ :=
        ih { bv with ip := copyIpByteFromSlice ip } s2 hf2
      refine ⟨s', hrun, hf', ?_, ?_, ?_, ?_⟩
      · intro k
        rcases hframe k with h | h
        · by_cases hk : copyIpByteFromSlice ip = k
          · right
            rw [h]
            show alookup k s2.frontend = some uid
            rw [hfr2, alookup_aupdate, if_pos hk]
          · left
            rw [h]
            show alookup k s2.frontend = alookup k s.frontend
            rw [hfr2, alookup_aupdate_ne _ _ hk]
        · right; exact h
      · intro _ ip' hip'
        rcases List.mem_cons.1 hip' with h | h
        · subst h
          rcases hframe (copyIpByteFromSlice ip') with h2 | h2
          · rw [h2]
            show alookup _ s2.frontend = some uid
            rw [hfr2]
            exact alookup_aupdate_self _ _ _
          · exact h2
        · exact hfront hnm ip' h
      · intro lip hlip
        cases rest with
        | nil =>
          have hlip' : ip = lip := by simpa using hlip
          subst hlip'
          rw [hnil rfl]
          show alookup uid s2.backend = _
          rw [hbk2]
          exact alookup_aupdate_self _ _ _
        | cons r t =>
          rw [List.getLast?_cons_cons] at hlip
          exact hback lip hlip
      · intro h
        cases h
    · rw [if_neg hnm]
      obtain ⟨s', hrun, hf', hframe, hfront, hback, hnil⟩ :=
        ih { bv with ip := copyIpByteFromSlice ip } s1 hf1
      refine ⟨s', hrun, hf', ?_, ?_, ?_, ?_⟩
      · intro k
        rcases hframe k with h | h
        · left
          rw [h]
          show alookup k s1.frontend = alookup k s.frontend
          rw [hfr1]
        · right; exact h
      · intro hc
        exact absurd hc hnm
      · intro lip hlip
        cases rest with
        | nil =>
          have hlip' : ip = lip := by simpa using hlip
          subst hlip'
          rw [hnil rfl]
          show alookup uid s1.backend = _
          rw [hbk1]
          exact alookup_aupdate_self _ _ _
        | cons r t =>
          rw [List.getLast?_cons_cons] at hlip
          exact hback lip hlip
      · intro h
        cases h

/-- C8: each iteration of the per-address loop of updateWorkload
overwrites the same Backend row's Ip field before re-writing the row,
so for a workload with more than one address the single Backend row
keeps only the last address of the list, while the earlier addresses
survive only as Frontend rows (for non-host-network workloads). -/
theorem updateWorkload_backend_retains_last_address
    (w : Workload) (s : St) (lip : List Nat)
    (hf : s.faults = []) (_hmulti : 1 < w.addresses.length)
    (hlast : w.addresses.getLast? = some lip) :
    ∃ s', updateWorkload w s = (s', none) ∧
      (∃ bv, backendLookup (strToNum w.uid s).1 s' = some bv ∧
        bv.ip = copyIpByteFromSlice lip) ∧
      (w.networkMode ≠ NetworkMode.hostNetwork →
        ∀ ip ∈ w.addresses,
          frontendLookup (copyIpByteFromSlice ip) s' = some (strToNum w.uid s).1) := by
  have key : ∀ bv0 : BackendValue,
      ∃ s', updateWorkloadAddrs (strToNum w.uid s).1 w.networkMode w.addresses
          (updateWorkloadServices w.services bv0 (strToNum w.uid s).2).1
          (updateWorkloadServices w.services bv0 (strToNum w.uid s).2).2 = (s', none) ∧
        (∃ bv, backendLookup (strToNum w.uid s).1 s' = some bv ∧
          bv.ip = copyIpByteFromSlice lip) ∧
        (w.networkMode ≠ NetworkMode.hostNetwork →
          ∀ ip ∈ w.addresses,
            frontendLookup (copyIpByteFromSlice ip) s' = some (strToNum w.uid s).1) := by
    intro bv0
    have hq : (updateWorkloadServices w.services bv0 (strToNum w.uid s).2).2.faults = [] := by
      rw [(updateWorkloadServices_frame w.services bv0 (strToNum w.uid s).2).1,
          strToNum_faults, hf]
    obtain ⟨s', hrun, _, _, hfront, hback, _⟩ :=
      updateWorkloadAddrs_spec (strToNum w.uid s).1 w.networkMode w.addresses
        (updateWorkloadServices w.services bv0 (strToNum w.uid s).2).1
        (updateWorkloadServices w.services bv0 (strToNum w.uid s).2).2 hq
    exact ⟨s', hrun, ⟨_, hback lip hlast, rfl⟩, fun hnm ip hip => hfront hnm ip hip⟩
  simp only [updateWorkload]
  exact key _

/-! ## Claim C6 -/

theorem strToNum_fst_congr (name : String) {s t : St}
    (h1 : s.hashStrToNum = t.hashStrToNum) (h2 : s.hashNextId = t.hashNextId) :
    (strToNum name s).1 = (strToNum name t).1 := by
  unfold strToNum
  rw [h1, h2]
  cases alookup name t.hashStrToNum <;> rfl

/-- After strToNum, the queried name is always bound to the returned
id. -/
theorem strToNum_hash_lookup_self (name : String) (s : St) :
    alookup name (strToNum name s).2.hashStrToNum = some (strToNum name s).1 := by
  rw [strToNum_hash_lookup, if_pos rfl]

/-- The Frontend loop of storeServiceFrontendData succeeds fault-free
and touches only the Frontend table (and the schedule). -/
theorem storeServiceFrontendLoop_ok (sid : Nat) :
    ∀ (addrs : List (List Nat)) (s : St), s.faults = [] →
    ∃ s', storeServiceFrontendLoop sid addrs s = (s', none) ∧ s'.faults = [] ∧
      s'.service = s.service ∧ s'.endpointsByService = s.endpointsByService ∧
      s'.hashStrToNum = s.hashStrToNum ∧ s'.hashNextId = s.hashNextId ∧
      s'.endpoint = s.endpoint ∧ s'.backend = s.backend := by
  intro addrs
  induction addrs with
  | nil =>
    intro s hf
    exact ⟨s, rfl, hf, rfl, rfl, rfl, rfl, rfl, rfl⟩
  | cons a rest ih =>
    intro s hf
    obtain ⟨s1, he1, hd1⟩ := frontendUpdate_ok (copyIpByteFromSlice a) sid s hf
    have hf1 : s1.faults = [] := by rw [hd1]; exact hf
    obtain ⟨s', hrun, hfa, hsv, heb, hh1, hh2, hep, hbk⟩ := ih s1 hf1
    refine ⟨s', ?_, hfa, ?_, ?_, ?_, ?_, ?_, ?_⟩
    · simp only [storeServiceFrontendLoop, he1]
      exact hrun
    · rw [hsv, hd1]
    · rw [heb, hd1]
    · rw [hh1, hd1]
    · rw [hh2, hd1]
    · rw [hep, hd1]
    · rw [hbk, hd1]

/-- The port loop of storeServiceData never touches the waypoint or
endpoint-count fields of the value under construction. -/
theorem setServicePortsLoop_fields (n : String) :
    ∀ (ports : List Port) (i : Nat) (nv : ServiceValue),
    (setServicePortsLoop n ports i nv).waypointAddr = nv.waypointAddr ∧
    (setServicePortsLoop n ports i nv).waypointPort = nv.waypointPort ∧
    (setServicePortsLoop n ports i nv).endpointCount = nv.endpointCount ∧
    (setServicePortsLoop n ports i nv).lbPolicy = nv.lbPolicy := by
  intro ports
  induction ports with
  | nil => intro i nv; exact ⟨rfl, rfl, rfl, rfl⟩
  | cons port rest ih =>
    intro i nv
    by_cases hi : i ≥ 10
    · simp [setServicePortsLoop, if_pos hi]
    · simp only [setServicePortsLoop, if_neg hi]
      by_cases hw : containsWaypointStr n
      · simp only [if_pos hw]
        exact ih (i + 1) _
      · simp only [if_neg hw]
        exact ih (i + 1) _

/-- The endpoint drain loop of storeServiceData succeeds fault-free
and leaves the Service table and the buffer untouched. -/
theorem drainEndpointLoop_ok (sid : Nat) :
    ∀ (uids : List String) (idx : Nat) (s : St), s.faults = [] →
    ∃ s', drainEndpointLoop sid uids idx s = (s', none) ∧ s'.faults = [] ∧
      s'.service = s.service ∧ s'.endpointsByService = s.endpointsByService := by
  intro uids
  induction uids with
  | nil =>
    intro idx s hf
    exact ⟨s, rfl, hf, rfl, rfl⟩
  | cons u rest ih =>
    intro idx s hf
    have hfp : (strToNum u s).2.faults = [] := by rw [strToNum_faults]; exact hf
    obtain ⟨s1, he1, hd1⟩ := endpointUpdate_ok (sid, idx + 1) (strToNum u s).1 (strToNum u s).2 hfp
    have hf1 : (updateRelationShipCache (strToNum u s).1 sid (idx + 1) s1).faults = [] := by
      show s1.faults = []
      rw [hd1]
      exact hfp
    obtain ⟨s', hrun, hfa, hsv, heb⟩ := ih (idx + 1) _ hf1
    refine ⟨s', ?_, hfa, ?_, ?_⟩
    · simp only [drainEndpointLoop, he1]
      exact hrun
    · rw [hsv]
      show s1.service = s.service
      rw [hd1, strToNum_service]
    · rw [heb]
      show s1.endpointsByService = s.endpointsByService
      rw [hd1, strToNum_endpointsByService]

/-- storeServiceData with a nil waypoint stores, fault-free, a Service
row with zeroed waypoint fields. -/
theorem storeServiceData_none_waypoint_ok (name : String) (ports : List Port)
    (order : List String) (s : St) (hf : s.faults = []) :
    ∃ s' sv, storeServiceData name none ports order s = (s', none) ∧
      serviceLookup (strToNum name s).1 s' = some sv ∧
      sv.waypointAddr = zero16 ∧ sv.waypointPort = 0 := by
  have hfp : (strToNum name s).2.faults = [] := by rw [strToNum_faults]; exact hf
  obtain ⟨hwa, hwp, _, _⟩ :=
    setServicePortsLoop_fields name ports 0 ({ lbPolicy := 0 } : ServiceValue)
  rcases hsl : serviceLookup (strToNum name s).1 (strToNum name s).2 with _ | oldValue
  · rcases hbuf : alookup name (strToNum name s).2.endpointsByService with _ | caches
    · obtain ⟨s1, he1, hd1⟩ :=
        serviceUpdate_ok (strToNum name s).1 (setServicePortsLoop name ports 0 { lbPolicy := 0 })
          (deleteEndpointsByService name (strToNum name s).2)
          (by show (strToNum name s).2.faults = []; exact hfp)
      refine ⟨s1, setServicePortsLoop name ports 0 { lbPolicy := 0 }, ?_, ?_, hwa, hwp⟩
      · simp only [storeServiceData, hsl, hbuf, he1]
      · rw [hd1]
        show alookup _ (aupdate _ _ _) = _
        rw [alookup_aupdate_self]
    · obtain ⟨s1, he1, hfa1, hsv1, _⟩ :=
        drainEndpointLoop_ok (strToNum name s).1 order 0 (strToNum name s).2 hfp
      obtain ⟨s2, he2, hd2⟩ :=
        serviceUpdate_ok (strToNum name s).1
          { setServicePortsLoop name ports 0 { lbPolicy := 0 } with
              endpointCount := mod32 caches.length }
          (deleteEndpointsByService name s1)
          (by show s1.faults = []; exact hfa1)
      refine ⟨s2,
        { setServicePortsLoop name ports 0 { lbPolicy := 0 } with
            endpointCount := mod32 caches.length }, ?_, ?_, ?_, ?_⟩
      · simp only [storeServiceData, hsl, hbuf, he1, he2]
      · rw [hd2]
        show alookup _ (aupdate _ _ _) = _
        rw [alookup_aupdate_self]
      · simpa using hwa
      · simpa using hwp
  · obtain ⟨s1, he1, hd1⟩ :=
      serviceUpdate_ok (strToNum name s).1
        { setServicePortsLoop name ports 0 { lbPolicy := 0 } with
            endpointCount := oldValue.endpointCount }
        (strToNum name s).2 hfp
    refine ⟨s1,
      { setServicePortsLoop name ports 0 { lbPolicy := 0 } with
          endpointCount := oldValue.endpointCount }, ?_, ?_, ?_, ?_⟩
    · simp only [storeServiceData, hsl, he1]
    · rw [hd1]
      show alookup _ (aupdate _ _ _) = _
      rw [alookup_aupdate_self]
    · simpa using hwa
    · simpa using hwp

/-- handleServiceCore on a service whose waypoint is nil stores,
fault-free, a Service row with zeroed waypoint fields under the hash
id of the service's resource name. -/
theorem handleServiceCore_none_waypoint (svc : Service) (order : List String) (s : St)
    (hf : s.faults = []) (hwp : svc.waypoint = none) :
    ∃ s' sv, handleServiceCore svc order s = (s', none) ∧
      serviceLookup (strToNum svc.resourceName s).1 s' = some sv ∧
      sv.waypointAddr = zero16 ∧ sv.waypointPort = 0 := by
  have hf0 : (strToNum svc.resourceName (addOrUpdateService svc s)).2.faults = [] := by
    rw [strToNum_faults]
    exact hf
  obtain ⟨s1, he1, hfa1, _, _, hh1, hh2, _, _⟩ :=
    storeServiceFrontendLoop_ok (strToNum svc.resourceName (addOrUpdateService svc s)).1
      svc.addresses (strToNum svc.resourceName (addOrUpdateService svc s)).2 hf0
  obtain ⟨s2, sv, he2, hlook, hwa, hwpp⟩ :=
    storeServiceData_none_waypoint_ok svc.resourceName svc.ports order s1 hfa1
  have hid1 : (strToNum svc.resourceName s1).1 =
      (strToNum svc.resourceName (strToNum svc.resourceName (addOrUpdateService svc s)).2).1 :=
    strToNum_fst_congr _ hh1 hh2
  have hid2 : (strToNum svc.resourceName
      (strToNum svc.resourceName (addOrUpdateService svc s)).2).1 =
      (strToNum svc.resourceName (addOrUpdateService svc s)).1 := by
    rw [strToNum_of_mem (strToNum_hash_lookup_self svc.resourceName (addOrUpdateService svc s))]
  have hid3 : (strToNum svc.resourceName (addOrUpdateService svc s)).1 =
      (strToNum svc.resourceName s).1 :=
    strToNum_fst_congr _ rfl rfl
  rw [hid1, hid2, hid3] at hlook
  refine ⟨s2, sv, ?_, hlook, hwa, hwpp⟩
  simp only [handleServiceCore, storeServiceFrontendData, he1, hwp]
  exact he2

/-- C6: when the incoming Service carries a waypoint whose address
equals the service's own first address, or exposes servicePort 15021,
handleService strips the waypoint before storing, so the stored
Service row carries zeroed waypoint address and port fields. -/
theorem handleService_waypoint_guard_zeroes_waypoint
    (svc : Service) (wp : GatewayAddress) (a0 : List Nat) (rest : List (List Nat))
    (order : List String) (s : St)
    (hf : s.faults = []) (hwp : svc.waypoint = some wp)
    (haddr : svc.addresses = a0 :: rest)
    (hguard : wp.address = a0 ∨ containsPort svc 15021 = true) :
    ∃ s' sv, handleService svc order s = (s', none) ∧
      serviceLookup (strToNum svc.resourceName s).1 s' = some sv ∧
      sv.waypointAddr = zero16 ∧ sv.waypointPort = 0 := by
  obtain ⟨s', sv, hrun, hlook, hwa, hwpp⟩ :=
    handleServiceCore_none_waypoint { svc with waypoint := none } order s hf rfl
  refine ⟨s', sv, ?_, hlook, hwa, hwpp⟩
  simp only [handleService, hwp, haddr]
  rw [if_pos hguard, ← haddr]
  exact hrun

def svcC6 : Service :=
  { ns := "ns", hostname := "svc", addresses := [[10, 2, 0, 1]],
    ports := [{ servicePort := 80, targetPort := 8080 }],
    waypoint := some { address := [10, 2, 0, 1], hboneMtlsPort := 15008 } }

def wpC6 : GatewayAddress := { address := [10, 2, 0, 1], hboneMtlsPort := 15008 }

theorem handleService_waypoint_guard_zeroes_waypoint_witness :
    (emptySt.faults = [] ∧ svcC6.waypoint = some wpC6 ∧
     svcC6.addresses = [10, 2, 0, 1] :: [] ∧
     (wpC6.address = [10, 2, 0, 1] ∨ containsPort svcC6 15021 = true)) ∧
    (∃ s' sv, handleService svcC6 [] emptySt = (s', none) ∧
      serviceLookup (strToNum svcC6.resourceName emptySt).1 s' = some sv ∧
      sv.waypointAddr = zero16 ∧ sv.waypointPort = 0) :=
  ⟨⟨rfl, rfl, rfl, Or.inl rfl⟩,
   handleService_waypoint_guard_zeroes_waypoint svcC6 wpC6 [10, 2, 0, 1] [] [] emptySt
     rfl rfl rfl (Or.inl rfl)⟩

/-! ## The densification step (claims C2, C1, C4) -/

theorem alookup_cons_self {κ α : Type} [DecidableEq κ] (k : κ) (v : α) (t : List (κ × α)) :
    alookup k ((k, v) :: t) = some v := by
  simp [alookup]

theorem alookup_cons_ne {κ α : Type} [DecidableEq κ] {k k' : κ} (h : k' ≠ k) (v : α)
    (t : List (κ × α)) : alookup k ((k', v) :: t) = alookup k t := by
  simp [alookup, h]

theorem alookup_mem {κ α : Type} [DecidableEq κ] {k : κ} {v : α} :
    ∀ {l : List (κ × α)}, alookup k l = some v → (k, v) ∈ l := by
  intro l
  induction l with
  | nil => intro h; cases h
  | cons p t ih =>
    obtain ⟨k₀, v₀⟩ := p
    intro h
    by_cases hk : k₀ = k
    · subst hk
      rw [alookup_cons_self] at h
      obtain rfl := Option.some.inj h
      exact List.mem_cons_self _ _
    · rw [alookup_cons_ne hk] at h
      exact List.mem_cons_of_mem _ (ih h)

/-- Density of the Endpoint rows of one service, in a form decidable
on concrete states: rows 1..n are present, and every Endpoint key of
that service lies in 1..n. -/
def denseFor (s : St) (sid n : Nat) : Prop :=
  (∀ i ∈ List.range' 1 n, (endpointLookup (sid, i) s).isSome = true) ∧
  (∀ p ∈ s.endpoint, p.1.1 = sid → 1 ≤ p.1.2 ∧ p.1.2 ≤ n)

instance (s : St) (sid n : Nat) : Decidable (denseFor s sid n) := by
  unfold denseFor
  infer_instance

theorem denseFor_isSome {s : St} {sid n : Nat} (h : denseFor s sid n) :
    ∀ i, (endpointLookup (sid, i) s).isSome ↔ (1 ≤ i ∧ i ≤ n) := by
  intro i
  constructor
  · intro hs
    rcases ho : endpointLookup (sid, i) s with _ | v
    · rw [ho] at hs
      cases hs
    · exact h.2 _ (alookup_mem ho) rfl
  · intro ⟨h1, h2⟩
    exact h.1 i (by rw [List.mem_range'_1]; omega)

theorem mod32_dec (n : Nat) (h1 : 1 ≤ n) (h2 : n < 4294967296) :
    mod32 (n + 4294967295) = n - 1 := by
  unfold mod32
  omega

/-- The densification step on one endpoint slot (sid, j), when the
Service row is present with a dense range [1..endpointCount] ∋ j:
slot j is overwritten with the value of the last slot, the last slot
is deleted, the count decrements; every other table is untouched. -/
theorem deleteEndpointOne_spec (sid j : Nat) (sv : ServiceValue) (s : St)
    (hf : s.faults = [])
    (hsv : serviceLookup sid s = some sv)
    (h32 : sv.endpointCount < 4294967296)
    (hdense : ∀ i, (endpointLookup (sid, i) s).isSome ↔ (1 ≤ i ∧ i ≤ sv.endpointCount))
    (hj1 : 1 ≤ j) (hjN : j ≤ sv.endpointCount) :
    ∃ s', deleteEndpointOne (sid, j) s = (s', none) ∧ s'.faults = [] ∧
      serviceLookup sid s' = some { sv with endpointCount := sv.endpointCount - 1 } ∧
      (∀ i, endpointLookup (sid, i) s' =
        if i = sv.endpointCount then none
        else if i = j then endpointLookup (sid, sv.endpointCount) s
        else endpointLookup (sid, i) s) ∧
      (∀ sid' i, sid' ≠ sid → endpointLookup (sid', i) s' = endpointLookup (sid', i) s) ∧
      (∀ sid', sid' ≠ sid → serviceLookup sid' s' = serviceLookup sid' s) ∧
      s'.frontend = s.frontend ∧ s'.backend = s.backend ∧
      s'.hashStrToNum = s.hashStrToNum ∧ s'.hashNextId = s.hashNextId ∧
      s'.endpointsByService = s.endpointsByService ∧
      s'.workloadCache = s.workloadCache ∧ s'.serviceCache = s.serviceCache ∧
      s'.startType = s.startType ∧
      (∃ lv, endpointLookup (sid, sv.endpointCount) s = some lv ∧
        s'.endpoint = aremove (sid, sv.endpointCount) (aupdate (sid, j) lv s.endpoint)) := by
  have hN1 : 1 ≤ sv.endpointCount := le_trans hj1 hjN
  obtain ⟨lastVal, hlast⟩ : ∃ v, endpointLookup (sid, sv.endpointCount) s = some v := by
    have := (hdense sv.endpointCount).2 ⟨hN1, le_refl _⟩
    rcases ho : endpointLookup (sid, sv.endpointCount) s with _ | v
    · rw [ho] at this
      cases this
    · exact ⟨v, rfl⟩
  obtain ⟨sA, heA, hdA⟩ := endpointUpdate_ok (sid, j) lastVal s hf
  have hfB : (updateRelationShipCache lastVal sid j sA).faults = [] := by
    show sA.faults = []
    rw [hdA]
    exact hf
  obtain ⟨sC, heC, hdC⟩ :=
    endpointDelete_ok (sid, sv.endpointCount) (updateRelationShipCache lastVal sid j sA) hfB
  have hfD : (deleteRelationShipCache sid j sC).faults = [] := by
    show sC.faults = []
    rw [hdC]
    exact hfB
  obtain ⟨s4, heD, hdD⟩ :=
    serviceUpdate_ok sid { sv with endpointCount := mod32 (sv.endpointCount + 4294967295) }
      (deleteRelationShipCache sid j sC) hfD
  have hep4 : s4.endpoint = aremove (sid, sv.endpointCount) (aupdate (sid, j) lastVal s.endpoint) := by
    rw [hdD, hdC, hdA]
    rfl
  have hsv4 : s4.service =
      aupdate sid { sv with endpointCount := mod32 (sv.endpointCount + 4294967295) } s.service := by
    rw [hdD, hdC, hdA]
    rfl
  refine ⟨s4, ?_, ?_, ?_, ?_, ?_, ?_, ?_, ?_, ?_, ?_, ?_, ?_, ?_, ?_, ⟨lastVal, hlast, hep4⟩⟩
  · simp only [deleteEndpointOne, updateRelationShipWithWorkloadAndService]
    simp only [hsv, hlast]
    simp only [heA, heC, heD]
  · rw [hdD]
    exact hfD
  · show alookup sid s4.service = _
    rw [hsv4, alookup_aupdate_self, mod32_dec _ hN1 h32]
  · intro i
    show alookup (sid, i) s4.endpoint = _
    rw [hep4, alookup_aremove, alookup_aupdate]
    by_cases hiN : i = sv.endpointCount
    · subst hiN
      rw [if_pos rfl, if_pos rfl]
    · rw [if_neg (by simpa using Ne.symm hiN), if_neg hiN]
      by_cases hij : i = j
      · subst hij
        rw [if_pos rfl, if_pos rfl, hlast]
      · rw [if_neg (by simpa using Ne.symm hij), if_neg hij]
        rfl
  · intro sid' i hne
    show alookup (sid', i) s4.endpoint = _
    rw [hep4, alookup_aremove_ne _ (by simpa using fun h => (hne h.symm).elim),
        alookup_aupdate_ne _ _ (by simpa using fun h => (hne h.symm).elim)]
    rfl
  · intro sid' hne
    show alookup sid' s4.service = _
    rw [hsv4, alookup_aupdate_ne _ _ hne.symm]
    rfl
  · rw [hdD, hdC, hdA]
    rfl
  · rw [hdD, hdC, hdA]
    rfl
  · rw [hdD, hdC, hdA]
    rfl
  · rw [hdD, hdC, hdA]
    rfl
  · rw [hdD, hdC, hdA]
    rfl
  · rw [hdD, hdC, hdA]
    rfl
  · rw [hdD, hdC, hdA]
    rfl
  · rw [hdD, hdC, hdA]
    rfl

/-- C2: endpoint deletion preserves the density invariant.  If the
Service row exists with endpointCount = N and the Endpoint rows of the
service are exactly (sid,1)..(sid,N), then after deleting slot
(sid, j) the count is N-1 and the rows are exactly (sid,1)..(sid,N-1),
with slot j now holding the value previously stored at index N; in the
degenerate case j = N the slot is simply deleted and the count
decrements. -/
theorem deleteEndpointRecords_density
    (sid j N : Nat) (sv : ServiceValue) (s : St)
    (hf : s.faults = []) (hsv : serviceLookup sid s = some sv) (hcount : sv.endpointCount = N)
    (h32 : N < 4294967296)
    (hdense : denseFor s sid N)
    (hj1 : 1 ≤ j) (hjN : j ≤ N) :
    ∃ s', deleteEndpointRecords [(sid, j)] s = (s', none) ∧
      (∃ sv', serviceLookup sid s' = some sv' ∧ sv'.endpointCount = N - 1) ∧
      (∀ i, (endpointLookup (sid, i) s').isSome ↔ (1 ≤ i ∧ i ≤ N - 1)) ∧
      (j < N → endpointLookup (sid, j) s' = endpointLookup (sid, N) s) ∧
      (j = N → endpointLookup (sid, N) s' = none) ∧
      (∀ i, 1 ≤ i → i ≤ N - 1 → i ≠ j → endpointLookup (sid, i) s' = endpointLookup (sid, i) s) := by
  subst hcount
  obtain ⟨s', hrun, _, hsvc, hform, _, _, _, _, _, _, _, _, _, _, _⟩ :=
    deleteEndpointOne_spec sid j sv s hf hsv h32 (denseFor_isSome hdense) hj1 hjN
  have hN1 : 1 ≤ sv.endpointCount := le_trans hj1 hjN
  have hiff := denseFor_isSome hdense
  refine ⟨s', ?_, ⟨_, hsvc, rfl⟩, ?_, ?_, ?_, ?_⟩
  · simp only [deleteEndpointRecords, hrun]
  · intro i
    rw [hform i]
    by_cases hiN : i = sv.endpointCount
    · subst hiN
      rw [if_pos rfl]
      simp only [Option.isSome_none, Bool.false_eq_true, false_iff]
      omega
    · rw [if_neg hiN]
      by_cases hij : i = j
      · subst hij
        rw [if_pos rfl]
        rw [hiff sv.endpointCount]
        constructor
        · intro _
          omega
        · intro _
          omega
      · rw [if_neg hij, hiff i]
        omega
  · intro hjlt
    rw [hform j, if_neg (by omega), if_pos rfl]
  · intro hje
    rw [← hje, hform j, if_pos hje]
  · intro i h1 h2 hij
    rw [hform i, if_neg (by omega), if_neg hij]

def stC2 : St :=
  { emptySt with service := [(7, { endpointCount := 3 })],
                 endpoint := [((7, 1), 101), ((7, 2), 102), ((7, 3), 103)] }

theorem deleteEndpointRecords_density_witness :
    (stC2.faults = [] ∧ serviceLookup 7 stC2 = some { endpointCount := 3 } ∧
     ({ endpointCount := 3 } : ServiceValue).endpointCount = 3 ∧
     3 < 4294967296 ∧ denseFor stC2 7 3 ∧ 1 ≤ 1 ∧ 1 ≤ 3) ∧
    (∃ s', deleteEndpointRecords [(7, 1)] stC2 = (s', none) ∧
      (∃ sv', serviceLookup 7 s' = some sv' ∧ sv'.endpointCount = 3 - 1) ∧
      (∀ i, (endpointLookup (7, i) s').isSome ↔ (1 ≤ i ∧ i ≤ 3 - 1)) ∧
      (1 < 3 → endpointLookup (7, 1) s' = endpointLookup (7, 3) stC2) ∧
      (1 = 3 → endpointLookup (7, 3) s' = none) ∧
      (∀ i, 1 ≤ i → i ≤ 3 - 1 → i ≠ 1 → endpointLookup (7, i) s' = endpointLookup (7, i) stC2)) :=
  ⟨⟨rfl, by decide, rfl, by decide, by decide, by decide, by decide⟩,
   deleteEndpointRecords_density 7 1 3 { endpointCount := 3 } stC2
     rfl (by decide) rfl (by decide) (by decide) (by decide) (by decide)⟩

/-! ## Purging a workload's endpoint slots (claims C1, C4) -/

/-- Every table-backed service has a dense endpoint range
[1..endpointCount]. -/
def epDense (s : St) : Prop :=
  ∀ sid sv, serviceLookup sid s = some sv →
    ∀ i, (endpointLookup (sid, i) s).isSome ↔ (1 ≤ i ∧ i ≤ sv.endpointCount)

/-- Every table-backed service has an endpoint count below 2^32. -/
def epCounts (s : St) : Prop :=
  ∀ sid sv, serviceLookup sid s = some sv → sv.endpointCount < 4294967296

/-- A backend uid occupies at most one endpoint slot per service. -/
def uidUnique (uid : Nat) (s : St) : Prop :=
  ∀ sid i i', endpointLookup (sid, i) s = some uid →
    endpointLookup (sid, i') s = some uid → i = i'

/-- No endpoint slot holds the given backend uid. -/
def noEpVal (uid : Nat) (s : St) : Prop :=
  ∀ k, alookup k s.endpoint ≠ some uid

theorem nodupKeys_alookup {κ α : Type} [DecidableEq κ] {l : List (κ × α)} {k : κ} {v : α}
    (hn : nodupKeys l) (hm : (k, v) ∈ l) : alookup k l = some v := by
  induction l with
  | nil => cases hm
  | cons p t ih =>
    obtain ⟨k₀, v₀⟩ := p
    rcases List.mem_cons.1 hm with h | h
    · injection h with h1 h2
      subst h1
      subst h2
      exact alookup_cons_self _ _ _
    · have hk : k₀ ≠ k := by
        intro hkk
        subst hkk
        exact (List.nodup_cons.1 hn).1 (List.mem_map.2 ⟨(k₀, v), h, rfl⟩)
      rw [alookup_cons_ne hk]
      exact ih (List.nodup_cons.1 hn).2 h

theorem endpointIterFindKey_sound {uid : Nat} {s : St} (hn : nodupKeys s.endpoint) :
    ∀ ek ∈ endpointIterFindKey uid s, endpointLookup ek s = some uid := by
  intro ek hek
  unfold endpointIterFindKey at hek
  obtain ⟨⟨k, v⟩, hmem, rfl⟩ := List.mem_map.1 hek
  have hv : v = uid := by
    have := (List.mem_filter.1 hmem).2
    simpa using this
  subst hv
  exact nodupKeys_alookup hn (List.mem_filter.1 hmem).1

theorem endpointIterFindKey_complete {uid : Nat} {s : St} {k : EndpointKeyT}
    (h : alookup k s.endpoint = some uid) : k ∈ endpointIterFindKey uid s := by
  unfold endpointIterFindKey
  exact List.mem_map.2 ⟨(k, uid), List.mem_filter.2 ⟨alookup_mem h, by simp⟩, rfl⟩

theorem endpointIterFindKey_nodup {uid : Nat} {s : St} (hn : nodupKeys s.endpoint) :
    (endpointIterFindKey uid s).Nodup := by
  unfold endpointIterFindKey
  have hsub : ((s.endpoint.filter (fun p => p.2 = uid)).map Prod.fst).Sublist
      (s.endpoint.map Prod.fst) :=
    List.Sublist.map Prod.fst (List.filter_sublist s.endpoint)
  exact List.Nodup.sublist hsub hn

/-- The purge step on one endpoint key holding the uid: after the
densification step of deleteEndpointRecords, the key's service holds
the uid nowhere; density, count bounds and per-service uniqueness are
preserved; no service gains an endpoint value it did not already hold;
Service-row presence and all other tables are untouched. -/
theorem deleteEndpointOne_purge (sid j uid : Nat) (s : St)
    (hf : s.faults = []) (hdense : epDense s) (hcounts : epCounts s)
    (hkey : endpointLookup (sid, j) s = some uid) (huniq : uidUnique uid s) :
    ∃ s', deleteEndpointOne (sid, j) s = (s', none) ∧ s'.faults = [] ∧
      epDense s' ∧ epCounts s' ∧
      (∀ i, endpointLookup (sid, i) s' ≠ some uid) ∧
      (∀ sid' i, sid' ≠ sid → endpointLookup (sid', i) s' = endpointLookup (sid', i) s) ∧
      (∀ sid' i v, endpointLookup (sid', i) s' = some v →
        ∃ i', endpointLookup (sid', i') s = some v) ∧
      (∀ sid', (serviceLookup sid' s').isSome = (serviceLookup sid' s).isSome) ∧
      (∀ v, uidUnique v s → uidUnique v s') ∧
      s'.frontend = s.frontend ∧ s'.backend = s.backend ∧
      s'.hashStrToNum = s.hashStrToNum ∧ s'.hashNextId = s.hashNextId ∧
      s'.endpointsByService = s.endpointsByService ∧
      s'.workloadCache = s.workloadCache ∧ s'.serviceCache = s.serviceCache ∧
      s'.startType = s.startType ∧
      (nodupKeys s.endpoint → nodupKeys s'.endpoint) := by
  rcases hsv : serviceLookup sid s with _ | sv
  · -- Service row absent: the fallback branch deletes the slot directly.
    obtain ⟨sE, heE, hdE⟩ := endpointDelete_ok (sid, j) s hf
    refine ⟨deleteRelationShipCache sid j sE, ?_, ?_, ?_, ?_, ?_, ?_, ?_, ?_, ?_,
      ?_, ?_, ?_, ?_, ?_, ?_, ?_, ?_, ?_⟩
    · simp only [deleteEndpointOne, hsv, deleteRelationShipWithWorkloadAndService, heE]
    · show sE.faults = []
      rw [hdE]
      exact hf
    · intro sid' sv' hl i
      have hl' : serviceLookup sid' s = some sv' := by
        have : (deleteRelationShipCache sid j sE).service = s.service := by rw [hdE]; rfl
        unfold serviceLookup at hl ⊢
        rw [this] at hl
        exact hl
      have hsid : sid' ≠ sid := by
        intro hh
        subst hh
        rw [hsv] at hl'
        cases hl'
      have hep : endpointLookup (sid', i) (deleteRelationShipCache sid j sE) =
          endpointLookup (sid', i) s := by
        show alookup (sid', i) (deleteRelationShipCache sid j sE).endpoint = _
        have : (deleteRelationShipCache sid j sE).endpoint = aremove (sid, j) s.endpoint := by
          rw [hdE]
          rfl
        rw [this, alookup_aremove_ne _ (by simpa using fun h => (hsid h.symm).elim)]
        rfl
      rw [hep]
      exact hdense sid' sv' hl' i
    · intro sid' sv' hl
      have hl' : serviceLookup sid' s = some sv' := by
        have : (deleteRelationShipCache sid j sE).service = s.service := by rw [hdE]; rfl
        unfold serviceLookup at hl ⊢
        rw [this] at hl
        exact hl
      exact hcounts sid' sv' hl'
    · intro i
      show alookup (sid, i) (deleteRelationShipCache sid j sE).endpoint ≠ some uid
      have : (deleteRelationShipCache sid j sE).endpoint = aremove (sid, j) s.endpoint := by
        rw [hdE]
        rfl
      rw [this, alookup_aremove]
      by_cases hij : (sid, j) = (sid, i)
      · rw [if_pos hij]
        exact fun h => by cases h
      · rw [if_neg hij]
        intro hcon
        have hji : i = j := huniq sid i j hcon hkey
        exact hij (by rw [hji])
    · intro sid' i hne
      show alookup (sid', i) (deleteRelationShipCache sid j sE).endpoint = _
      have : (deleteRelationShipCache sid j sE).endpoint = aremove (sid, j) s.endpoint := by
        rw [hdE]
        rfl
      rw [this, alookup_aremove_ne _ (by simpa using fun h => (hne h.symm).elim)]
      rfl
    · intro sid' i v hv
      refine ⟨i, ?_⟩
      show alookup (sid', i) s.endpoint = some v
      have hv' : alookup (sid', i) (aremove ((sid : Nat), j) s.endpoint) = some v := by
        have : (deleteRelationShipCache sid j sE).endpoint = aremove (sid, j) s.endpoint := by
          rw [hdE]
          rfl
        rw [← this]
        exact hv
      rw [alookup_aremove] at hv'
      by_cases hk : ((sid : Nat), j) = (sid', i)
      · rw [if_pos hk] at hv'
        cases hv'
      · rw [if_neg hk] at hv'
        exact hv'
    · intro sid'
      have : (deleteRelationShipCache sid j sE).service = s.service := by rw [hdE]; rfl
      unfold serviceLookup
      rw [this]
    · intro v hv sid' i i' h1 h2
      have hconv : ∀ m, endpointLookup (sid', m) (deleteRelationShipCache sid j sE) = some v →
          endpointLookup (sid', m) s = some v := by
        intro m hm
        show alookup (sid', m) s.endpoint = some v
        have : (deleteRelationShipCache sid j sE).endpoint = aremove (sid, j) s.endpoint := by
          rw [hdE]
          rfl
        unfold endpointLookup at hm
        rw [this, alookup_aremove] at hm
        by_cases hk : ((sid : Nat), j) = (sid', m)
        · rw [if_pos hk] at hm
          cases hm
        · rw [if_neg hk] at hm
          exact hm
      exact hv sid' i i' (hconv i h1) (hconv i' h2)
    · rw [hdE]
      rfl
    · rw [hdE]
      rfl
    · rw [hdE]
      rfl
    · rw [hdE]
      rfl
    · rw [hdE]
      rfl
    · rw [hdE]
      rfl
    · rw [hdE]
      rfl
    · rw [hdE]
      rfl
    · intro hnd
      have : (deleteRelationShipCache sid j sE).endpoint = aremove (sid, j) s.endpoint := by
        rw [hdE]
        rfl
      unfold nodupKeys at hnd ⊢
      rw [this]
      exact List.Nodup.sublist (List.Sublist.map Prod.fst (List.filter_sublist s.endpoint)) hnd
  · -- Service row present: the densification step applies.
    have hsome : (endpointLookup (sid, j) s).isSome = true := by rw [hkey]; rfl
    obtain ⟨hj1, hjN⟩ := (hdense sid sv hsv j).1 hsome
    have hN1 : 1 ≤ sv.endpointCount := le_trans hj1 hjN
    have h32 := hcounts sid sv hsv
    obtain ⟨s', hrun, hfa, hsvc, hform, hother, hosvc, hfr, hbk, hh1, hh2, hebs, hwc, hsc, hst,
      lv, _, hepEq⟩ :=
      deleteEndpointOne_spec sid j sv s hf hsv h32 (hdense sid sv hsv) hj1 hjN
    have hNotAtN : ∀ i, endpointLookup (sid, i) s' = some uid → False := by
      intro i hcon
      rw [hform i] at hcon
      by_cases hiN : i = sv.endpointCount
      · rw [if_pos hiN] at hcon
        cases hcon
      · rw [if_neg hiN] at hcon
        by_cases hij : i = j
        · rw [if_pos hij] at hcon
          have := huniq sid sv.endpointCount j hcon hkey
          exact hiN (by omega)
        · rw [if_neg hij] at hcon
          exact hij (huniq sid i j hcon hkey)
    refine ⟨s', hrun, hfa, ?_, ?_, fun i hcon => hNotAtN i hcon, hother, ?_, ?_, ?_,
      hfr, hbk, hh1, hh2, hebs, hwc, hsc, hst, ?_⟩
    · -- density preserved
      intro sid' sv' hl i
      by_cases hss : sid' = sid
      · subst hss
        rw [hsvc] at hl
        obtain rfl := Option.some.inj hl
        show (endpointLookup (sid', i) s').isSome ↔ 1 ≤ i ∧ i ≤ sv.endpointCount - 1
        rw [hform i]
        by_cases hiN : i = sv.endpointCount
        · rw [if_pos hiN]
          simp only [Option.isSome_none, Bool.false_eq_true, false_iff]
          omega
        · rw [if_neg hiN]
          by_cases hij : i = j
          · rw [if_pos hij]
            have hNsome : (endpointLookup (sid', sv.endpointCount) s).isSome = true :=
              (hdense sid' sv hsv sv.endpointCount).2 ⟨hN1, le_refl _⟩
            rw [hNsome]
            constructor
            · intro _
              omega
            · intro _
              rfl
          · rw [if_neg hij, hdense sid' sv hsv i]
            omega
      · rw [hosvc sid' hss] at hl
        rw [hother sid' i hss]
        exact hdense sid' sv' hl i
    · -- counts preserved
      intro sid' sv' hl
      by_cases hss : sid' = sid
      · subst hss
        rw [hsvc] at hl
        obtain rfl := Option.some.inj hl
        show sv.endpointCount - 1 < 4294967296
        omega
      · rw [hosvc sid' hss] at hl
        exact hcounts sid' sv' hl
    · -- per-service values only shrink
      intro sid' i v hv
      by_cases hss : sid' = sid
      · subst hss
        rw [hform i] at hv
        by_cases hiN : i = sv.endpointCount
        · rw [if_pos hiN] at hv
          cases hv
        · rw [if_neg hiN] at hv
          by_cases hij : i = j
          · rw [if_pos hij] at hv
            exact ⟨sv.endpointCount, hv⟩
          · rw [if_neg hij] at hv
            exact ⟨i, hv⟩
      · rw [hother sid' i hss] at hv
        exact ⟨i, hv⟩
    · -- Service-row presence preserved
      intro sid'
      by_cases hss : sid' = sid
      · subst hss
        rw [hsvc, hsv]
        rfl
      · rw [hosvc sid' hss]
    · -- per-service uniqueness of any value preserved
      intro v hv sid' i i' h1 h2
      by_cases hss : sid' = sid
      · subst hss
        have htrans : ∀ m, endpointLookup (sid', m) s' = some v →
            m ≠ sv.endpointCount ∧
              endpointLookup (sid', if m = j then sv.endpointCount else m) s = some v := by
          intro m hm
          rw [hform m] at hm
          by_cases hmN : m = sv.endpointCount
          · rw [if_pos hmN] at hm
            cases hm
          · rw [if_neg hmN] at hm
            by_cases hmj : m = j
            · rw [if_pos hmj] at hm
              exact ⟨hmN, by rw [if_pos hmj]; exact hm⟩
            · rw [if_neg hmj] at hm
              exact ⟨hmN, by rw [if_neg hmj]; exact hm⟩
        obtain ⟨hne1, hv1⟩ := htrans i h1
        obtain ⟨hne2, hv2⟩ := htrans i' h2
        have := hv sid' _ _ hv1 hv2
        by_cases hij : i = j
        · by_cases hij' : i' = j
          · rw [hij, hij']
          · rw [if_pos hij, if_neg hij'] at this
            exact absurd this.symm hne2
        · by_cases hij' : i' = j
          · rw [if_neg hij, if_pos hij'] at this
            exact absurd this hne1
          · rw [if_neg hij, if_neg hij'] at this
            exact this
      · exact hv sid' i i' (by rw [← hother sid' i hss]; exact h1)
          (by rw [← hother sid' i' hss]; exact h2)
    · intro hnd
      unfold nodupKeys
      rw [hepEq]
      exact nodupKeys_aremove _ (nodupKeys_aupdate _ _ hnd)

/-- Purging every endpoint key that holds the uid: given per-service
uniqueness and density, deleteEndpointRecords over the complete key
set removes every occurrence of the uid from the Endpoint table,
preserving density, count bounds, per-service value sets (they only
shrink), Service-row presence and all other tables. -/
theorem deleteEndpointRecords_purge (uid : Nat) :
    ∀ (eks : List EndpointKeyT) (s : St),
    s.faults = [] → epDense s → epCounts s → uidUnique uid s →
    (∀ ek ∈ eks, endpointLookup ek s = some uid) →
    (∀ k, alookup k s.endpoint = some uid → k ∈ eks) →
    eks.Nodup →
    ∃ s', deleteEndpointRecords eks s = (s', none) ∧ s'.faults = [] ∧
      noEpVal uid s' ∧ epDense s' ∧ epCounts s' ∧
      (∀ sid i v, endpointLookup (sid, i) s' = some v →
        ∃ i', endpointLookup (sid, i') s = some v) ∧
      (∀ sid, (serviceLookup sid s').isSome = (serviceLookup sid s).isSome) ∧
      (∀ v, uidUnique v s → uidUnique v s') ∧
      s'.frontend = s.frontend ∧ s'.backend = s.backend ∧
      s'.hashStrToNum = s.hashStrToNum ∧ s'.hashNextId = s.hashNextId ∧
      s'.endpointsByService = s.endpointsByService ∧
      s'.workloadCache = s.workloadCache ∧ s'.serviceCache = s.serviceCache ∧
      s'.startType = s.startType ∧
      (nodupKeys s.endpoint → nodupKeys s'.endpoint) := by
  intro eks
  induction eks with
  | nil =>
    intro s hf hdense hcounts huniq _ hcomp _
    exact ⟨s, rfl, hf, fun k hk => absurd (hcomp k hk) (List.not_mem_nil k),
      hdense, hcounts, fun sid i v h => ⟨i, h⟩, fun _ => rfl, fun _ h => h,
      rfl, rfl, rfl, rfl, rfl, rfl, rfl, rfl, fun h => h⟩
  | cons ek rest ih =>
    intro s hf hdense hcounts huniq hall hcomp hnd
    obtain ⟨sid, j⟩ := ek
    obtain ⟨s1, hrun1, hf1, hdense1, hcounts1, hpurged, hother, hsub1, hpres1, huniqp1,
      hfr1, hbk1, hh11, hh21, hebs1, hwc1, hsc1, hst1, hnodp1⟩ :=
      deleteEndpointOne_purge sid j uid s hf hdense hcounts
        (hall _ (List.mem_cons_self _ _)) huniq
    have huniq1 : uidUnique uid s1 := huniqp1 uid huniq
    have hall1 : ∀ ek' ∈ rest, endpointLookup ek' s1 = some uid := by
      intro ek' hmem
      obtain ⟨sid', j'⟩ := ek'
      have hsid : sid' ≠ sid := by
        intro hh
        subst hh
        have := huniq sid' j' j (hall _ (List.mem_cons_of_mem _ hmem))
          (hall _ (List.mem_cons_self _ _))
        subst this
        exact (List.nodup_cons.1 hnd).1 hmem
      rw [hother sid' j' hsid]
      exact hall _ (List.mem_cons_of_mem _ hmem)
    have hcomp1 : ∀ k, alookup k s1.endpoint = some uid → k ∈ rest := by
      intro k hk
      obtain ⟨k1, k2⟩ := k
      by_cases hk1 : k1 = sid
      · subst hk1
        exact absurd hk (hpurged k2)
      · rw [show alookup ((k1 : Nat), k2) s1.endpoint = endpointLookup (k1, k2) s1 from rfl,
           hother k1 k2 hk1] at hk
        rcases List.mem_cons.1 (hcomp _ hk) with h | h
        · injection h with h1 h2
          exact absurd h1 hk1
        · exact h
    obtain ⟨s'', hrun2, hf2, hno2, hdense2, hcounts2, hsub2, hpres2, huniqp2,
      hfr2, hbk2, hh12, hh22, hebs2, hwc2, hsc2, hst2, hnodp2⟩ :=
      ih s1 hf1 hdense1 hcounts1 huniq1 hall1 hcomp1 (List.nodup_cons.1 hnd).2
    refine ⟨s'', ?_, hf2, hno2, hdense2, hcounts2, ?_, ?_, ?_, ?_, ?_, ?_, ?_, ?_, ?_, ?_, ?_,
      fun h => hnodp2 (hnodp1 h)⟩
    · simp only [deleteEndpointRecords, hrun1]
      exact hrun2
    · intro sid' i v hv
      obtain ⟨i', hi'⟩ := hsub2 sid' i v hv
      exact hsub1 sid' i' v hi'
    · intro sid'
      rw [hpres2 sid', hpres1 sid']
    · intro v hv
      exact huniqp2 v (huniqp1 v hv)
    · rw [hfr2, hfr1]
    · rw [hbk2, hbk1]
    · rw [hh12, hh11]
    · rw [hh22, hh21]
    · rw [hebs2, hebs1]
    · rw [hwc2, hwc1]
    · rw [hsc2, hsc1]
    · rw [hst2, hst1]

theorem epDense_congr {s t : St} (hep : t.endpoint = s.endpoint) (hsv : t.service = s.service)
    (h : epDense s) : epDense t := by
  intro sid sv hl i
  unfold serviceLookup at hl
  rw [hsv] at hl
  unfold endpointLookup
  rw [hep]
  exact h sid sv hl i

theorem epCounts_congr {s t : St} (hsv : t.service = s.service) (h : epCounts s) : epCounts t := by
  intro sid sv hl
  unfold serviceLookup at hl
  rw [hsv] at hl
  exact h sid sv hl

theorem uidUnique_congr {s t : St} (hep : t.endpoint = s.endpoint) {uid : Nat}
    (h : uidUnique uid s) : uidUnique uid t := by
  intro sid i i' h1 h2
  unfold endpointLookup at h1 h2
  rw [hep] at h1 h2
  exact h sid i i' h1 h2

/-- Workload removal, fault-free, under the endpoint invariants:
the Backend row of the uid's hash id is gone, no Endpoint slot holds
that id any more, the HashName entry is gone, and the single Frontend
row keyed by the IP recorded in the Backend row is deleted; every
other table entry — in particular Frontend rows written for the
workload's earlier addresses — is untouched, and the endpoint
invariants are preserved. -/
theorem removeWorkloadFromBpfMap_purge (uid : String) (s : St)
    (hf : s.faults = []) (hnod : nodupKeys s.endpoint)
    (hdense : epDense s) (hcounts : epCounts s)
    (huniq : uidUnique (strToNum uid s).1 s) :
    ∃ s', removeWorkloadFromBpfMap uid s = (s', none) ∧ s'.faults = [] ∧
      backendLookup (strToNum uid s).1 s' = none ∧
      noEpVal (strToNum uid s).1 s' ∧
      (∀ n, alookup n s'.hashStrToNum = if uid = n then none else alookup n s.hashStrToNum) ∧
      (∀ b, b ≠ (strToNum uid s).1 → backendLookup b s' = backendLookup b s) ∧
      (∀ bv, backendLookup (strToNum uid s).1 s = some bv →
        s'.frontend = aremove bv.ip s.frontend) ∧
      (backendLookup (strToNum uid s).1 s = none → s'.frontend = s.frontend) ∧
      epDense s' ∧ epCounts s' ∧
      (∀ sid i v, endpointLookup (sid, i) s' = some v →
        ∃ i', endpointLookup (sid, i') s = some v) ∧
      (∀ sid, (serviceLookup sid s').isSome = (serviceLookup sid s).isSome) ∧
      (∀ v, uidUnique v s → uidUnique v s') ∧
      nodupKeys s'.endpoint ∧
      s'.workloadCache = s.workloadCache ∧ s'.serviceCache = s.serviceCache ∧
      s'.endpointsByService = s.endpointsByService ∧ s'.startType = s.startType := by
  have hbconv : backendLookup (strToNum uid s).1 (strToNum uid s).2 =
      backendLookup (strToNum uid s).1 s := by
    unfold backendLookup
    rw [strToNum_backend]
  have hfH : (strToNum uid s).2.faults = [] := by rw [strToNum_faults]; exact hf
  -- Step A: deletePodFrontendData
  have hstepF : ∃ sF, deletePodFrontendData (strToNum uid s).1 (strToNum uid s).2 = (sF, none) ∧
      sF.faults = [] ∧ sF.endpoint = s.endpoint ∧ sF.service = s.service ∧
      sF.backend = s.backend ∧ sF.hashStrToNum = (strToNum uid s).2.hashStrToNum ∧
      sF.workloadCache = s.workloadCache ∧ sF.serviceCache = s.serviceCache ∧
      sF.endpointsByService = s.endpointsByService ∧ sF.startType = s.startType ∧
      (∀ bv, backendLookup (strToNum uid s).1 s = some bv →
        sF.frontend = aremove bv.ip s.frontend) ∧
      (backendLookup (strToNum uid s).1 s = none → sF.frontend = s.frontend) := by
    rcases hbk : backendLookup (strToNum uid s).1 s with _ | bv
    · refine ⟨(strToNum uid s).2, ?_, hfH, strToNum_endpoint uid s, strToNum_service uid s,
        strToNum_backend uid s, rfl, strToNum_workloadCache uid s, strToNum_serviceCache uid s,
        strToNum_endpointsByService uid s, strToNum_startType uid s, ?_, ?_⟩
      · simp only [deletePodFrontendData, hbconv, hbk]
      · intro bv hbv
        cases hbv
      · intro _
        exact strToNum_frontend uid s
    · obtain ⟨sF, heF, hdF⟩ := frontendDelete_ok bv.ip (strToNum uid s).2 hfH
      refine ⟨sF, ?_, ?_, ?_, ?_, ?_, ?_, ?_, ?_, ?_, ?_, ?_, ?_⟩
      · simp only [deletePodFrontendData, hbconv, hbk, heF]
      · rw [hdF]
        exact hfH
      · rw [hdF]
        exact strToNum_endpoint uid s
      · rw [hdF]
        exact strToNum_service uid s
      · rw [hdF]
        exact strToNum_backend uid s
      · rw [hdF]
      · rw [hdF]
        exact strToNum_workloadCache uid s
      · rw [hdF]
        exact strToNum_serviceCache uid s
      · rw [hdF]
        exact strToNum_endpointsByService uid s
      · rw [hdF]
        exact strToNum_startType uid s
      · intro bv' hbv'
        obtain rfl := Option.some.inj hbv'
        rw [hdF]
        show aremove bv.ip (strToNum uid s).2.frontend = aremove bv.ip s.frontend
        rw [strToNum_frontend]
      · intro hcon
        cases hcon
  obtain ⟨sF, hrunF, hfF, hepF, hsvF, hbkF, hhF, hwcF, hscF, hebsF, hstF, hfrS, hfrN⟩ := hstepF
  have hnodF : nodupKeys sF.endpoint := by rw [hepF]; exact hnod
  have hdenseF : epDense sF := epDense_congr hepF hsvF hdense
  have hcountsF : epCounts sF := epCounts_congr hsvF hcounts
  have huniqF : uidUnique (strToNum uid s).1 sF := uidUnique_congr hepF huniq
  -- Step B: the endpoint purge
  obtain ⟨sP, hrunP, hfP, hnoP, hdenseP, hcountsP, hsubP, hpresP, huniqpP,
      hfrP, hbkP, hh1P, hh2P, hebsP, hwcP, hscP, hstP, hnodpP⟩ :=
    deleteEndpointRecords_purge (strToNum uid s).1
      (endpointIterFindKey (strToNum uid s).1 sF) sF hfF hdenseF hcountsF huniqF
      (endpointIterFindKey_sound hnodF) (fun k hk => endpointIterFindKey_complete hk)
      (endpointIterFindKey_nodup hnodF)
  have hifeq : (if (endpointIterFindKey (strToNum uid s).1 sF).length ≠ 0 then
      deleteEndpointRecords (endpointIterFindKey (strToNum uid s).1 sF) sF
      else (sF, none)) = (sP, none) := by
    by_cases hlen : (endpointIterFindKey (strToNum uid s).1 sF).length ≠ 0
    · rw [if_pos hlen]
      exact hrunP
    · rw [if_neg hlen]
      have hempty : endpointIterFindKey (strToNum uid s).1 sF = [] :=
        List.length_eq_zero.1 (by omega)
      rw [hempty] at hrunP
      exact hrunP
  -- Step C: delete the Backend row
  obtain ⟨sB, heB, hdB⟩ := backendDelete_ok (strToNum uid s).1 sP hfP
  refine ⟨hashDelete uid sB, ?_, ?_, ?_, ?_, ?_, ?_, ?_, ?_, ?_, ?_, ?_, ?_, ?_, ?_, ?_, ?_,
    ?_, ?_⟩
  · simp only [removeWorkloadFromBpfMap, hrunF, hifeq, heB]
  · show sB.faults = []
    rw [hdB]
    exact hfP
  · show alookup _ (hashDelete uid sB).backend = none
    show alookup _ sB.backend = none
    rw [hdB]
    show alookup _ (aremove _ sP.backend) = none
    exact alookup_aremove_self _ _
  · intro k
    show alookup k (hashDelete uid sB).endpoint ≠ _
    have : (hashDelete uid sB).endpoint = sP.endpoint := by rw [hdB]; rfl
    rw [this]
    exact hnoP k
  · intro n
    show alookup n (aremove uid sB.hashStrToNum) = _
    rw [alookup_aremove]
    by_cases hn : uid = n
    · rw [if_pos hn, if_pos hn]
    · rw [if_neg hn, if_neg hn]
      have : sB.hashStrToNum = (strToNum uid s).2.hashStrToNum := by
        rw [hdB, hh1P, hhF]
      rw [this, strToNum_hash_lookup, if_neg hn]
  · intro b hb
    show alookup b (hashDelete uid sB).backend = _
    show alookup b sB.backend = _
    rw [hdB]
    show alookup b (aremove _ sP.backend) = _
    rw [alookup_aremove_ne _ (fun h => (hb h.symm).elim), hbkP, hbkF]
    rfl
  · intro bv hbv
    show (hashDelete uid sB).frontend = _
    have : (hashDelete uid sB).frontend = sF.frontend := by rw [hdB, hfrP]; rfl
    rw [this]
    exact hfrS bv hbv
  · intro hcon
    have : (hashDelete uid sB).frontend = sF.frontend := by rw [hdB, hfrP]; rfl
    rw [this]
    exact hfrN hcon
  · refine epDense_congr ?_ ?_ hdenseP
    · rw [hdB]
      rfl
    · rw [hdB]
      rfl
  · refine epCounts_congr ?_ hcountsP
    rw [hdB]
    rfl
  · intro sid i v hv
    have hconv : endpointLookup (sid, i) (hashDelete uid sB) = endpointLookup (sid, i) sP := by
      unfold endpointLookup
      rw [hdB]
      rfl
    rw [hconv] at hv
    obtain ⟨i', hi'⟩ := hsubP sid i v hv
    refine ⟨i', ?_⟩
    unfold endpointLookup at hi' ⊢
    rw [hepF] at hi'
    exact hi'
  · intro sid
    have hconv : serviceLookup sid (hashDelete uid sB) = serviceLookup sid sP := by
      unfold serviceLookup
      rw [hdB]
      rfl
    rw [hconv, hpresP sid]
    unfold serviceLookup
    rw [hsvF]
  · intro v hv
    refine uidUnique_congr ?_ (huniqpP v (uidUnique_congr hepF hv))
    rw [hdB]
    rfl
  · have : (hashDelete uid sB).endpoint = sP.endpoint := by rw [hdB]; rfl
    unfold nodupKeys
    rw [this]
    exact hnodpP hnodF
  · show sB.workloadCache = _
    rw [hdB, hwcP, hwcF]
  · show sB.serviceCache = _
    rw [hdB, hscP, hscF]
  · show sB.endpointsByService = _
    rw [hdB, hebsP, hebsF]
  · show sB.startType = _
    rw [hdB, hstP, hstF]

theorem epDense_of_no_services {s : St} (h1 : s.service = []) : epDense s := by
  intro sid sv hl
  unfold serviceLookup at hl
  rw [h1] at hl
  simp [alookup] at hl

theorem epCounts_of_no_services {s : St} (h1 : s.service = []) : epCounts s := by
  intro sid sv hl
  unfold serviceLookup at hl
  rw [h1] at hl
  simp [alookup] at hl

theorem uidUnique_of_no_endpoints {s : St} {v : Nat} (h : s.endpoint = []) : uidUnique v s := by
  intro sid i i' h1 _
  unfold endpointLookup at h1
  rw [h] at h1
  simp [alookup] at h1

/-- C1 (amended): after a workload removal completes, no Backend row
and no Endpoint row references HashName(w.uid), the HashName entry is
gone, and the Frontend row keyed by the IP recorded in the Backend row
(the address written by the last loop iteration) is deleted; Frontend
rows under any other key — in particular those written for the earlier
addresses of a multi-address workload — are not deleted. -/
theorem removeWorkload_purges_backend_endpoint_and_recorded_frontend
    (uid : String) (s : St)
    (hf : s.faults = []) (hnod : nodupKeys s.endpoint)
    (hdense : epDense s) (hcounts : epCounts s)
    (huniq : uidUnique (strToNum uid s).1 s) :
    ∃ s', removeWorkloadFromBpfMap uid s = (s', none) ∧
      backendLookup (strToNum uid s).1 s' = none ∧
      (∀ k, alookup k s'.endpoint ≠ some (strToNum uid s).1) ∧
      alookup uid s'.hashStrToNum = none ∧
      (∀ bv, backendLookup (strToNum uid s).1 s = some bv →
        frontendLookup bv.ip s' = none ∧
        ∀ k, k ≠ bv.ip → frontendLookup k s' = frontendLookup k s) ∧
      (backendLookup (strToNum uid s).1 s = none → s'.frontend = s.frontend) := by
  obtain ⟨s', hrun, _, hbk, hno, hhash, _, hfrS, hfrN, _⟩ :=
    removeWorkloadFromBpfMap_purge uid s hf hnod hdense hcounts huniq
  refine ⟨s', hrun, hbk, hno, ?_, ?_, hfrN⟩
  · rw [hhash uid, if_pos rfl]
  · intro bv hbv
    constructor
    · show alookup bv.ip s'.frontend = none
      rw [hfrS bv hbv]
      exact alookup_aremove_self _ _
    · intro k hk
      show alookup k s'.frontend = alookup k s.frontend
      rw [hfrS bv hbv]
      exact alookup_aremove_ne _ (fun h => (hk h.symm).elim)

theorem removeWorkload_purges_backend_endpoint_and_recorded_frontend_witness :
    (stC1.faults = [] ∧ nodupKeys stC1.endpoint ∧ epDense stC1 ∧ epCounts stC1 ∧
     uidUnique (strToNum "w" stC1).1 stC1) ∧
    (∃ s', removeWorkloadFromBpfMap "w" stC1 = (s', none) ∧
      backendLookup (strToNum "w" stC1).1 s' = none ∧
      (∀ k, alookup k s'.endpoint ≠ some (strToNum "w" stC1).1) ∧
      alookup "w" s'.hashStrToNum = none ∧
      (∀ bv, backendLookup (strToNum "w" stC1).1 stC1 = some bv →
        frontendLookup bv.ip s' = none ∧
        ∀ k, k ≠ bv.ip → frontendLookup k s' = frontendLookup k stC1) ∧
      (backendLookup (strToNum "w" stC1).1 stC1 = none → s'.frontend = stC1.frontend)) :=
  ⟨⟨by decide, by decide, epDense_of_no_services (by decide),
    epCounts_of_no_services (by decide), uidUnique_of_no_endpoints (by decide)⟩,
   removeWorkload_purges_backend_endpoint_and_recorded_frontend "w" stC1
     (by decide) (by decide) (epDense_of_no_services (by decide))
     (epCounts_of_no_services (by decide)) (uidUnique_of_no_endpoints (by decide))⟩

/-! ## Service removal under density (claim C4) -/

/-- The Frontend-deletion loop of deleteFrontendData succeeds
fault-free and touches only the Frontend table. -/
theorem deleteFrontendDataLoop_ok :
    ∀ (fks : List (List Nat)) (s : St), s.faults = [] →
    ∃ s', deleteFrontendDataLoop fks s = (s', none) ∧ s'.faults = [] ∧
      s'.service = s.service ∧ s'.endpoint = s.endpoint ∧ s'.backend = s.backend ∧
      s'.hashStrToNum = s.hashStrToNum ∧ s'.hashNextId = s.hashNextId ∧
      s'.endpointsByService = s.endpointsByService ∧
      s'.workloadCache = s.workloadCache ∧ s'.serviceCache = s.serviceCache ∧
      s'.startType = s.startType := by
  intro fks
  induction fks with
  | nil =>
    intro s hf
    exact ⟨s, rfl, hf, rfl, rfl, rfl, rfl, rfl, rfl, rfl, rfl, rfl⟩
  | cons fk rest ih =>
    intro s hf
    obtain ⟨s1, he1, hd1⟩ := frontendDelete_ok fk s hf
    have hf1 : s1.faults = [] := by rw [hd1]; exact hf
    obtain ⟨s', hrun, hfa, h1, h2, h3, h4, h5, h6, h7, h8, h9⟩ := ih s1 hf1
    refine ⟨s', ?_, hfa, ?_, ?_, ?_, ?_, ?_, ?_, ?_, ?_, ?_⟩
    · simp only [deleteFrontendDataLoop, he1]
      exact hrun
    · rw [h1, hd1]
    · rw [h2, hd1]
    · rw [h3, hd1]
    · rw [h4, hd1]
    · rw [h5, hd1]
    · rw [h6, hd1]
    · rw [h7, hd1]
    · rw [h8, hd1]
    · rw [h9, hd1]

/-- The endpoint-deletion loop of removeServiceResourceFromBpfMap,
fault-free: it deletes exactly the rows (sid, i) for i in the index
list and changes nothing else. -/
theorem endpointDeleteSeq_ok (sid : Nat) :
    ∀ (idxs : List Nat) (s : St), s.faults = [] →
    ∃ s', endpointDeleteSeq sid idxs s = (s', none) ∧ s'.faults = [] ∧
      (∀ ek : EndpointKeyT, endpointLookup ek s' =
        if ek.1 = sid ∧ ek.2 ∈ idxs then none else endpointLookup ek s) ∧
      s'.service = s.service ∧ s'.frontend = s.frontend ∧ s'.backend = s.backend ∧
      s'.hashStrToNum = s.hashStrToNum ∧ s'.hashNextId = s.hashNextId ∧
      s'.endpointsByService = s.endpointsByService ∧
      s'.workloadCache = s.workloadCache ∧ s'.serviceCache = s.serviceCache ∧
      s'.startType = s.startType ∧
      (nodupKeys s.endpoint → nodupKeys s'.endpoint) := by
  intro idxs
  induction idxs with
  | nil =>
    intro s hf
    refine ⟨s, rfl, hf, ?_, rfl, rfl, rfl, rfl, rfl, rfl, rfl, rfl, rfl, fun h => h⟩
    intro ek
    rw [if_neg]
    rintro ⟨_, hmem⟩
    exact List.not_mem_nil _ hmem
  | cons i rest ih =>
    intro s hf
    obtain ⟨s1, he1, hd1⟩ := endpointDelete_ok (sid, i) s hf
    have hf1 : s1.faults = [] := by rw [hd1]; exact hf
    have hlk1 : ∀ ek : EndpointKeyT, endpointLookup ek s1 =
        if ek = (sid, i) then none else endpointLookup ek s := by
      intro ek
      show alookup ek s1.endpoint = _
      have : s1.endpoint = aremove (sid, i) s.endpoint := by rw [hd1]
      rw [this, alookup_aremove]
      by_cases h : ek = (sid, i)
      · rw [if_pos h.symm, if_pos h]
      · rw [if_neg (fun hh => h hh.symm), if_neg h]
        rfl
    obtain ⟨s', hrun, hfa, hlk, h1, h2, h3, h4, h5, h6, h7, h8, h9, h10⟩ := ih s1 hf1
    refine ⟨s', ?_, hfa, ?_, ?_, ?_, ?_, ?_, ?_, ?_, ?_, ?_, ?_, ?_⟩
    · simp only [endpointDeleteSeq, he1]
      exact hrun
    · intro ek
      rw [hlk ek]
      by_cases hrest : ek.1 = sid ∧ ek.2 ∈ rest
      · rw [if_pos hrest, if_pos ⟨hrest.1, List.mem_cons_of_mem _ hrest.2⟩]
      · rw [if_neg hrest, hlk1 ek]
        by_cases hek : ek = (sid, i)
        · rw [if_pos hek, if_pos (by rw [hek]; exact ⟨rfl, List.mem_cons_self _ _⟩)]
        · rw [if_neg hek, if_neg]
          rintro ⟨ha, hb⟩
          rcases List.mem_cons.1 hb with hh | hh
          · exact hek (by
              obtain ⟨e1, e2⟩ := ek
              simp only at ha hh
              rw [ha, hh])
          · exact hrest ⟨ha, hh⟩
    · rw [h1, hd1]
    · rw [h2, hd1]
    · rw [h3, hd1]
    · rw [h4, hd1]
    · rw [h5, hd1]
    · rw [h6, hd1]
    · rw [h7, hd1]
    · rw [h8, hd1]
    · rw [h9, hd1]
    · intro hnd
      refine h10 ?_
      have : s1.endpoint = aremove (sid, i) s.endpoint := by rw [hd1]
      unfold nodupKeys
      rw [this]
      exact nodupKeys_aremove _ hnd

theorem deleteFrontendData_ok (id : Nat) (s : St) (hf : s.faults = []) :
    ∃ s', deleteFrontendData id s = (s', none) ∧ s'.faults = [] ∧
      s'.service = s.service ∧ s'.endpoint = s.endpoint ∧ s'.backend = s.backend ∧
      s'.hashStrToNum = s.hashStrToNum ∧ s'.hashNextId = s.hashNextId ∧
      s'.endpointsByService = s.endpointsByService ∧
      s'.workloadCache = s.workloadCache ∧ s'.serviceCache = s.serviceCache ∧
      s'.startType = s.startType := by
  unfold deleteFrontendData
  by_cases hlen : (frontendIterFindKey id s).length ≠ 0
  · rw [if_pos hlen]
    exact deleteFrontendDataLoop_ok _ s hf
  · rw [if_neg hlen]
    exact ⟨s, rfl, hf, rfl, rfl, rfl, rfl, rfl, rfl, rfl, rfl, rfl⟩

/-- Service removal when the Service row exists, fault-free, under
the density invariant: the Service row, every Endpoint row of the
service and the HashName entry are gone; the Backend table, the other
services' rows and the other HashName entries are untouched. -/
theorem removeServiceResourceFromBpfMap_present (name : String) (sv : ServiceValue) (s : St)
    (hf : s.faults = []) (hsv : serviceLookup (strToNum name s).1 s = some sv)
    (hdense : epDense s) (hcounts : epCounts s) :
    ∃ s', removeServiceResourceFromBpfMap name s = (s', none) ∧ s'.faults = [] ∧
      serviceLookup (strToNum name s).1 s' = none ∧
      (∀ j, endpointLookup ((strToNum name s).1, j) s' = none) ∧
      (∀ n, alookup n s'.hashStrToNum = if name = n then none else alookup n s.hashStrToNum) ∧
      (∀ sid', sid' ≠ (strToNum name s).1 → serviceLookup sid' s' = serviceLookup sid' s) ∧
      (∀ ek : EndpointKeyT, ek.1 ≠ (strToNum name s).1 →
        endpointLookup ek s' = endpointLookup ek s) ∧
      (∀ (ek : EndpointKeyT) (v : Nat), endpointLookup ek s' = some v →
        endpointLookup ek s = some v) ∧
      s'.backend = s.backend ∧ s'.workloadCache = s.workloadCache ∧
      s'.serviceCache = aremove name s.serviceCache ∧
      s'.endpointsByService = s.endpointsByService ∧ s'.startType = s.startType ∧
      (nodupKeys s.endpoint → nodupKeys s'.endpoint) ∧
      epDense s' ∧ epCounts s' ∧ (∀ v, uidUnique v s → uidUnique v s') := by
  have hid : (strToNum name (deleteServiceCache name s)).1 = (strToNum name s).1 :=
    strToNum_fst_congr name rfl rfl
  have hfH : (strToNum name (deleteServiceCache name s)).2.faults = [] := by
    rw [strToNum_faults]
    exact hf
  have hepH : (strToNum name (deleteServiceCache name s)).2.endpoint = s.endpoint := by
    rw [strToNum_endpoint]
    rfl
  have hsvH : (strToNum name (deleteServiceCache name s)).2.service = s.service := by
    rw [strToNum_service]
    rfl
  have hbkH : (strToNum name (deleteServiceCache name s)).2.backend = s.backend := by
    rw [strToNum_backend]
    rfl
  have hwcH : (strToNum name (deleteServiceCache name s)).2.workloadCache = s.workloadCache := by
    rw [strToNum_workloadCache]
    rfl
  have hscH : (strToNum name (deleteServiceCache name s)).2.serviceCache =
      aremove name s.serviceCache := by
    rw [strToNum_serviceCache]
    rfl
  have hebsH : (strToNum name (deleteServiceCache name s)).2.endpointsByService =
      s.endpointsByService := by
    rw [strToNum_endpointsByService]
    rfl
  have hstH : (strToNum name (deleteServiceCache name s)).2.startType = s.startType := by
    rw [strToNum_startType]
    rfl
  have hhashH : ∀ n, alookup n (strToNum name (deleteServiceCache name s)).2.hashStrToNum =
      if name = n then some (strToNum name s).1 else alookup n s.hashStrToNum := by
    intro n
    rw [strToNum_hash_lookup]
    by_cases h : name = n
    · rw [if_pos h, if_pos h, hid]
    · rw [if_neg h, if_neg h]
      rfl
  have hlook : serviceLookup (strToNum name (deleteServiceCache name s)).1
      (strToNum name (deleteServiceCache name s)).2 = some sv := by
    show alookup _ _ = _
    rw [hsvH, hid]
    exact hsv
  obtain ⟨sD, hrunD, hfD, hsvD, hepD, hbkD, hh1D, _, hebsD, hwcD, hscD, hstD⟩ :=
    deleteFrontendData_ok (strToNum name (deleteServiceCache name s)).1
      (strToNum name (deleteServiceCache name s)).2 hfH
  obtain ⟨sS, heS, hdS⟩ :=
    serviceDelete_ok (strToNum name (deleteServiceCache name s)).1 sD hfD
  have hfS : sS.faults = [] := by rw [hdS]; exact hfD
  have hepS : sS.endpoint = s.endpoint := by
    rw [hdS]
    show sD.endpoint = s.endpoint
    rw [hepD, hepH]
  have hsvS : sS.service = aremove (strToNum name s).1 s.service := by
    rw [hdS]
    show aremove _ sD.service = _
    rw [hsvD, hsvH, hid]
  obtain ⟨sQ, hrunQ, hfQ, hlkQ, hsvQ, _, hbkQ, hh1Q, _, hebsQ, hwcQ, hscQ, hstQ, hnodQ⟩ :=
    endpointDeleteSeq_ok (strToNum name (deleteServiceCache name s)).1
      (List.range' 1 sv.endpointCount) sS hfS
  have hlkQ' : ∀ ek : EndpointKeyT, endpointLookup ek sQ =
      if ek.1 = (strToNum name s).1 ∧ ek.2 ∈ List.range' 1 sv.endpointCount then none
      else endpointLookup ek s := by
    intro ek
    rw [hlkQ ek, hid]
    by_cases h : ek.1 = (strToNum name s).1 ∧ ek.2 ∈ List.range' 1 sv.endpointCount
    · rw [if_pos h, if_pos h]
    · rw [if_neg h, if_neg h]
      show alookup ek sS.endpoint = _
      rw [hepS]
      rfl
  have hsvQ' : sQ.service = aremove (strToNum name s).1 s.service := by
    rw [hsvQ, hsvS]
  have hepFinal : (hashDelete name sQ).endpoint = sQ.endpoint := rfl
  have hsvFinal : (hashDelete name sQ).service = sQ.service := rfl
  have hlkF : ∀ ek : EndpointKeyT, endpointLookup ek (hashDelete name sQ) =
      if ek.1 = (strToNum name s).1 ∧ ek.2 ∈ List.range' 1 sv.endpointCount then none
      else endpointLookup ek s := by
    intro ek
    show alookup ek sQ.endpoint = _
    exact hlkQ' ek
  have hsvLkF : ∀ sid', serviceLookup sid' (hashDelete name sQ) =
      alookup sid' (aremove (strToNum name s).1 s.service) := by
    intro sid'
    show alookup sid' sQ.service = _
    rw [hsvQ']
  refine ⟨hashDelete name sQ, ?_, hfQ, ?_, ?_, ?_, ?_, ?_, ?_, ?_, ?_, ?_, ?_, ?_, ?_, ?_, ?_, ?_⟩
  · simp only [removeServiceResourceFromBpfMap, hlook, hrunD, heS, hrunQ]
  · rw [hsvLkF]
    exact alookup_aremove_self _ _
  · intro j
    rw [hlkF (⟨(strToNum name s).1, j⟩ : EndpointKeyT)]
    by_cases hj : j ∈ List.range' 1 sv.endpointCount
    · rw [if_pos ⟨rfl, hj⟩]
    · rw [if_neg (by rintro ⟨_, hh⟩; exact hj hh)]
      have hiff := hdense (strToNum name s).1 sv hsv j
      rw [List.mem_range'_1] at hj
      rcases ho : endpointLookup ((strToNum name s).1, j) s with _ | v
      · rfl
      · exfalso
        have : 1 ≤ j ∧ j ≤ sv.endpointCount := hiff.1 (by rw [ho]; rfl)
        omega
  · intro n
    show alookup n (aremove name sQ.hashStrToNum) = _
    rw [alookup_aremove]
    by_cases hn : name = n
    · rw [if_pos hn, if_pos hn]
    · rw [if_neg hn, if_neg hn]
      have : sQ.hashStrToNum = (strToNum name (deleteServiceCache name s)).2.hashStrToNum := by
        rw [hh1Q]
        rw [hdS]
        show sD.hashStrToNum = _
        exact hh1D
      rw [this, hhashH n, if_neg hn]
  · intro sid' hne
    rw [hsvLkF]
    rw [alookup_aremove_ne _ (fun h => (hne h.symm).elim)]
    rfl
  · intro ek hne
    rw [hlkF ek, if_neg (by rintro ⟨h, _⟩; exact hne h)]
  · intro ek v hv
    rw [hlkF ek] at hv
    by_cases h : ek.1 = (strToNum name s).1 ∧ ek.2 ∈ List.range' 1 sv.endpointCount
    · rw [if_pos h] at hv
      cases hv
    · rw [if_neg h] at hv
      exact hv
  · show sQ.backend = _
    rw [hbkQ]
    rw [hdS]
    show sD.backend = _
    rw [hbkD, hbkH]
  · show sQ.workloadCache = _
    rw [hwcQ]
    rw [hdS]
    show sD.workloadCache = _
    rw [hwcD, hwcH]
  · show sQ.serviceCache = _
    rw [hscQ]
    rw [hdS]
    show sD.serviceCache = _
    rw [hscD, hscH]
  · show sQ.endpointsByService = _
    rw [hebsQ]
    rw [hdS]
    show sD.endpointsByService = _
    rw [hebsD, hebsH]
  · show sQ.startType = _
    rw [hstQ]
    rw [hdS]
    show sD.startType = _
    rw [hstD, hstH]
  · intro hnd
    show nodupKeys sQ.endpoint
    refine hnodQ ?_
    unfold nodupKeys
    rw [hepS]
    exact hnd
  · intro sid' sv' hl i
    have hne : sid' ≠ (strToNum name s).1 := by
      intro hh
      rw [hsvLkF sid', hh] at hl
      rw [alookup_aremove_self] at hl
      cases hl
    have hl' : serviceLookup sid' s = some sv' := by
      rw [hsvLkF sid', alookup_aremove_ne _ (fun h => (hne h.symm).elim)] at hl
      exact hl
    rw [hlkF (⟨sid', i⟩ : EndpointKeyT), if_neg (by rintro ⟨h, _⟩; exact hne h)]
    exact hdense sid' sv' hl' i
  · intro sid' sv' hl
    have hne : sid' ≠ (strToNum name s).1 := by
      intro hh
      rw [hsvLkF sid', hh] at hl
      rw [alookup_aremove_self] at hl
      cases hl
    have hl' : serviceLookup sid' s = some sv' := by
      rw [hsvLkF sid', alookup_aremove_ne _ (fun h => (hne h.symm).elim)] at hl
      exact hl
    exact hcounts sid' sv' hl'
  · intro v hv sid' i i' h1 h2
    refine hv sid' i i' ?_ ?_
    · rw [hlkF (⟨sid', i⟩ : EndpointKeyT)] at h1
      by_cases h : sid' = (strToNum name s).1 ∧ i ∈ List.range' 1 sv.endpointCount
      · rw [if_pos h] at h1
        cases h1
      · rw [if_neg h] at h1
        exact h1
    · rw [hlkF (⟨sid', i'⟩ : EndpointKeyT)] at h2
      by_cases h : sid' = (strToNum name s).1 ∧ i' ∈ List.range' 1 sv.endpointCount
      · rw [if_pos h] at h2
        cases h2
      · rw [if_neg h] at h2
        exact h2

/-- The state invariants needed by the post-restart reconciliation:
fault-free schedule, duplicate-free Endpoint keys, density, count
bounds and per-service value injectivity. -/
def GcInv (s : St) : Prop :=
  s.faults = [] ∧ nodupKeys s.endpoint ∧ epDense s ∧ epCounts s ∧ ∀ v, uidUnique v s

/-- One reconciliation step: it preserves the invariants, never
resurrects a deleted row, touches only its own entry's rows, and —
when the entry is stale — removes the Backend row (with every Endpoint
occurrence of the id) or the Service row (with every Endpoint row of
the id), together with the HashName entry. -/
theorem compareStep_spec (str : String) (num : Nat) (s : St)
    (hInv : GcInv s) (hid : alookup str s.hashStrToNum = some num) :
    GcInv (compareStep str num s) ∧
    (compareStep str num s).startType = s.startType ∧
    (∀ b, b ≠ num → backendLookup b (compareStep str num s) = backendLookup b s) ∧
    (∀ sid, sid ≠ num →
      (serviceLookup sid (compareStep str num s)).isSome = (serviceLookup sid s).isSome) ∧
    (∀ n, n ≠ str →
      alookup n (compareStep str num s).hashStrToNum = alookup n s.hashStrToNum) ∧
    (compareStep str num s).workloadCache = s.workloadCache ∧
    (∀ n, n ≠ str → getService n (compareStep str num s) = getService n s) ∧
    (∀ i, backendLookup i s = none → backendLookup i (compareStep str num s) = none) ∧
    (∀ v, noEpVal v s → noEpVal v (compareStep str num s)) ∧
    (∀ sid, (∀ j, endpointLookup (sid, j) s = none) →
      (∀ j, endpointLookup (sid, j) (compareStep str num s) = none)) ∧
    (∀ sid, serviceLookup sid s = none → serviceLookup sid (compareStep str num s) = none) ∧
    (∀ n, n ≠ str → alookup n s.hashStrToNum = none →
      alookup n (compareStep str num s).hashStrToNum = none) ∧
    (((getWorkloadByUid str s).isNone && (getService str s).isNone) = true →
      (backendLookup num s ≠ none →
        backendLookup num (compareStep str num s) = none ∧
        noEpVal num (compareStep str num s) ∧
        alookup str (compareStep str num s).hashStrToNum = none) ∧
      (backendLookup num s = none → serviceLookup num s ≠ none →
        serviceLookup num (compareStep str num s) = none ∧
        (∀ j, endpointLookup (num, j) (compareStep str num s) = none) ∧
        alookup str (compareStep str num s).hashStrToNum = none)) := by
  obtain ⟨hf, hnod, hdense, hcounts, huniqAll⟩ := hInv
  have hnum : (strToNum str s).1 = num := by
    rw [strToNum_of_mem hid]
  by_cases hcond : ((getWorkloadByUid str s).isNone && (getService str s).isNone) = true
  · rcases hbk : backendLookup num s with _ | bv
    · rcases hsvl : serviceLookup num s with _ | sv
      · -- stale entry but neither table has a row: the step is a no-op
        have hstep : compareStep str num s = s := by
          unfold compareStep
          rw [if_pos hcond, hbk, hsvl]
        rw [hstep]
        refine ⟨⟨hf, hnod, hdense, hcounts, huniqAll⟩, rfl, fun _ _ => rfl, fun _ _ => rfl,
          fun _ _ => rfl, rfl, fun _ _ => rfl, fun _ h => h, fun _ h => h,
          fun _ h => h, fun _ h => h, fun _ _ h => h, ?_⟩
        intro _
        exact ⟨fun hne => absurd rfl hne, fun _ hne => absurd rfl hne⟩
      · -- service path
        obtain ⟨s', hrun, hf', hsvNone, hrows, hhash, hsvOther, hepOther, hepSub, hbkEq,
            hwcEq, hscEq, hebsEq, hstEq, hnodp, hdense', hcounts', huniqp⟩ :=
          removeServiceResourceFromBpfMap_present str sv s hf (by rw [hnum]; exact hsvl)
            hdense hcounts
        have hstep : compareStep str num s = s' := by
          unfold compareStep
          rw [if_pos hcond, hbk, hsvl, hrun]
        rw [hstep]
        rw [hnum] at hsvNone hrows hsvOther hepOther
        refine ⟨⟨hf', hnodp hnod, hdense', hcounts', fun v => huniqp v (huniqAll v)⟩,
          hstEq, ?_, ?_, ?_, hwcEq, ?_, ?_, ?_, ?_, ?_, ?_, ?_⟩
        · intro b _
          show alookup b s'.backend = _
          rw [hbkEq]
          rfl
        · intro sid hne
          rw [hsvOther sid hne]
        · intro n hn
          rw [hhash n, if_neg (fun h => (hn h.symm).elim)]
        · intro n hn
          show alookup n s'.serviceCache = _
          rw [hscEq, alookup_aremove_ne _ (fun h => (hn h.symm).elim)]
          rfl
        · intro i hi
          show alookup i s'.backend = none
          rw [hbkEq]
          exact hi
        · intro v hv k hk
          obtain ⟨k1, k2⟩ := k
          exact hv (k1, k2) (hepSub (k1, k2) v hk)
        · intro sid hrow j
          rcases ho : endpointLookup (sid, j) s' with _ | v
          · rfl
          · exfalso
            have := hepSub (sid, j) v ho
            rw [hrow j] at this
            cases this
        · intro sid hnone
          by_cases hsid : sid = num
          · subst hsid
            exact hsvNone
          · rcases ho : serviceLookup sid s' with _ | v
            · rfl
            · exfalso
              have := hsvOther sid hsid
              rw [ho, hnone] at this
              cases this
        · intro n hn hnone
          rw [hhash n, if_neg (fun h => (hn h.symm).elim)]
          exact hnone
        · intro _
          refine ⟨fun hne => absurd rfl hne, fun _ _ => ⟨hsvNone, hrows, ?_⟩⟩
          rw [hhash str, if_pos rfl]
    · -- workload path
      obtain ⟨s', hrun, hf', hbkNone, hnoVal, hhash, hbkOther, _, _, hdense', hcounts',
          hsub, hpres, huniqp, hnodp, hwcEq, hscEq, hebsEq, hstEq⟩ :=
        removeWorkloadFromBpfMap_purge str s hf hnod hdense hcounts
          (by rw [hnum]; exact huniqAll num)
      have hstep : compareStep str num s = s' := by
        unfold compareStep
        rw [if_pos hcond, hbk, hrun]
      rw [hstep]
      rw [hnum] at hbkNone hnoVal hbkOther
      refine ⟨⟨hf', hnodp, hdense', hcounts', fun v => huniqp v (huniqAll v)⟩,
        hstEq, hbkOther, ?_, ?_, hwcEq, ?_, ?_, ?_, ?_, ?_, ?_, ?_⟩
      · intro sid _
        exact hpres sid
      · intro n hn
        rw [hhash n, if_neg (fun h => (hn h.symm).elim)]
      · intro n _
        show alookup n s'.serviceCache = _
        rw [hscEq]
        rfl
      · intro i hi
        by_cases hieq : i = num
        · subst hieq
          exact hbkNone
        · rw [hbkOther i hieq]
          exact hi
      · intro v hv k hk
        obtain ⟨k1, k2⟩ := k
        obtain ⟨i', hi'⟩ := hsub k1 k2 v hk
        exact hv (k1, i') hi'
      · intro sid hrow j
        rcases ho : endpointLookup (sid, j) s' with _ | v
        · rfl
        · exfalso
          obtain ⟨i', hi'⟩ := hsub sid j v ho
          rw [hrow i'] at hi'
          cases hi'
      · intro sid hnone
        rcases ho : serviceLookup sid s' with _ | v
        · rfl
        · exfalso
          have := hpres sid
          rw [ho, hnone] at this
          cases this
      · intro n hn hnone
        rw [hhash n, if_neg (fun h => (hn h.symm).elim)]
        exact hnone
      · intro _
        refine ⟨fun _ => ⟨hbkNone, hnoVal, ?_⟩, fun hcontra => nomatch hcontra⟩
        rw [hhash str, if_pos rfl]
  · have hstep : compareStep str num s = s := by
      unfold compareStep
      rw [if_neg hcond]
    rw [hstep]
    exact ⟨⟨hf, hnod, hdense, hcounts, huniqAll⟩, rfl, fun _ _ => rfl, fun _ _ => rfl,
      fun _ _ => rfl, rfl, fun _ _ => rfl, fun _ h => h, fun _ h => h,
      fun _ h => h, fun _ h => h, fun _ _ h => h, fun hc => absurd hc hcond⟩

/-- The reconciliation loop over a list of hash-name entries with
distinct names and distinct ids: every stale entry is garbage
collected through the matching removal path, and nothing already
absent is resurrected. -/
theorem compareLoop_gc :
    ∀ (entries : List (String × Nat)) (s : St),
    GcInv s →
    (∀ e ∈ entries, alookup e.1 s.hashStrToNum = some e.2) →
    (entries.map Prod.fst).Nodup →
    (entries.map Prod.snd).Nodup →
    GcInv (compareLoop entries s) ∧
    (compareLoop entries s).startType = s.startType ∧
    (∀ i, backendLookup i s = none → backendLookup i (compareLoop entries s) = none) ∧
    (∀ v, noEpVal v s → noEpVal v (compareLoop entries s)) ∧
    (∀ sid, (∀ j, endpointLookup (sid, j) s = none) →
      (∀ j, endpointLookup (sid, j) (compareLoop entries s) = none)) ∧
    (∀ sid, serviceLookup sid s = none → serviceLookup sid (compareLoop entries s) = none) ∧
    (∀ n, n ∉ entries.map Prod.fst → alookup n s.hashStrToNum = none →
      alookup n (compareLoop entries s).hashStrToNum = none) ∧
    (∀ e ∈ entries, ((getWorkloadByUid e.1 s).isNone && (getService e.1 s).isNone) = true →
      (backendLookup e.2 s ≠ none →
        backendLookup e.2 (compareLoop entries s) = none ∧
        noEpVal e.2 (compareLoop entries s) ∧
        alookup e.1 (compareLoop entries s).hashStrToNum = none) ∧
      (backendLookup e.2 s = none → serviceLookup e.2 s ≠ none →
        serviceLookup e.2 (compareLoop entries s) = none ∧
        (∀ j, endpointLookup (e.2, j) (compareLoop entries s) = none) ∧
        alookup e.1 (compareLoop entries s).hashStrToNum = none)) := by
  intro entries
  induction entries with
  | nil =>
    intro s hInv _ _ _
    exact ⟨hInv, rfl, fun _ h => h, fun _ h => h, fun _ h => h, fun _ h => h,
      fun _ _ h => h, fun e he => absurd he (List.not_mem_nil e)⟩
  | cons entry rest ih =>
    intro s hInv hagree hndN hndI
    obtain ⟨str, num⟩ := entry
    obtain ⟨hInv1, hst1, hbkOther1, hsvp1, hhash1, hwc1, hgs1, hbkMono1, hnoValMono1,
        hrowMono1, hsvNoneMono1, hhashMono1, hstale1⟩ :=
      compareStep_spec str num s hInv (hagree _ (List.mem_cons_self _ _))
    have hstrNotRest : str ∉ rest.map Prod.fst := by
      have := hndN
      simp only [List.map_cons, List.nodup_cons] at this
      exact this.1
    have hnumNotRest : num ∉ rest.map Prod.snd := by
      have := hndI
      simp only [List.map_cons, List.nodup_cons] at this
      exact this.1
    have hagree1 : ∀ e ∈ rest, alookup e.1 (compareStep str num s).hashStrToNum = some e.2 := by
      intro e he
      have hne : e.1 ≠ str := by
        intro hh
        exact hstrNotRest (List.mem_map.2 ⟨e, he, hh⟩)
      rw [hhash1 e.1 hne]
      exact hagree e (List.mem_cons_of_mem _ he)
    have hndN1 : (rest.map Prod.fst).Nodup := by
      have := hndN
      simp only [List.map_cons, List.nodup_cons] at this
      exact this.2
    have hndI1 : (rest.map Prod.snd).Nodup := by
      have := hndI
      simp only [List.map_cons, List.nodup_cons] at this
      exact this.2
    obtain ⟨hInvF, hstF, hbkMonoF, hnoValMonoF, hrowMonoF, hsvNoneMonoF, hhashMonoF,
        hstaleF⟩ := ih (compareStep str num s) hInv1 hagree1 hndN1 hndI1
    have hloop : compareLoop ((str, num) :: rest) s =
        compareLoop rest (compareStep str num s) := rfl
    rw [hloop]
    refine ⟨hInvF, hstF.trans hst1, ?_, ?_, ?_, ?_, ?_, ?_⟩
    · intro i hi
      exact hbkMonoF i (hbkMono1 i hi)
    · intro v hv
      exact hnoValMonoF v (hnoValMono1 v hv)
    · intro sid hrow
      exact hrowMonoF sid (hrowMono1 sid hrow)
    · intro sid hnone
      exact hsvNoneMonoF sid (hsvNoneMono1 sid hnone)
    · intro n hn hnone
      have hne : n ≠ str := by
        intro hh
        exact hn (by rw [hh]; exact List.mem_cons_self _ _)
      have hnrest : n ∉ rest.map Prod.fst := by
        intro hh
        exact hn (List.mem_cons_of_mem _ hh)
      exact hhashMonoF n hnrest (hhashMono1 n hne hnone)
    · intro e he hcond
      rcases List.mem_cons.1 he with hhead | htail
      · -- the head entry: facts established by the step, preserved by the loop
        subst hhead
        obtain ⟨hW, hS⟩ := hstale1 hcond
        constructor
        · intro hne
          obtain ⟨h1, h2, h3⟩ := hW hne
          exact ⟨hbkMonoF _ h1, hnoValMonoF _ h2, hhashMonoF _ hstrNotRest h3⟩
        · intro hnone hserv
          obtain ⟨h1, h2, h3⟩ := hS hnone hserv
          exact ⟨hsvNoneMonoF _ h1,
            fun j => hrowMonoF _ (fun j' => h2 j') j,
            hhashMonoF _ hstrNotRest h3⟩
      · -- a later entry: its branch conditions are unchanged by the step
        have hneStr : e.1 ≠ str := by
          intro hh
          exact hstrNotRest (List.mem_map.2 ⟨e, htail, hh⟩)
        have hneNum : e.2 ≠ num := by
          intro hh
          exact hnumNotRest (List.mem_map.2 ⟨e, htail, hh⟩)
        have hwEq : getWorkloadByUid e.1 (compareStep str num s) = getWorkloadByUid e.1 s := by
          show alookup e.1 (compareStep str num s).workloadCache = _
          rw [hwc1]
          rfl
        have hsEq : getService e.1 (compareStep str num s) = getService e.1 s :=
          hgs1 e.1 hneStr
        have hbEq : backendLookup e.2 (compareStep str num s) = backendLookup e.2 s :=
          hbkOther1 e.2 hneNum
        have hcond1 : ((getWorkloadByUid e.1 (compareStep str num s)).isNone &&
            (getService e.1 (compareStep str num s)).isNone) = true := by
          rw [hwEq, hsEq]
          exact hcond
        obtain ⟨hWf, hSf⟩ := hstaleF e htail hcond1
        constructor
        · intro hne
          exact hWf (by rw [hbEq]; exact hne)
        · intro hnone hserv
          refine hSf (by rw [hbEq]; exact hnone) ?_
          rw [Option.ne_none_iff_isSome, hsvp1 e.2 hneNum, ← Option.ne_none_iff_isSome]
          exact hserv

/-- C4: when the process was launched in Restart mode, the
reconciliation pass garbage-collects every stale HashName entry —
one with neither a cached Workload nor a cached Service under its
name: if a Backend row for its id exists, the workload-removal path
leaves no Backend row, no Endpoint occurrence of the id, and no
HashName entry; otherwise, if a Service row for its id exists, the
service-removal path leaves no Service row, no Endpoint row of the
id, and no HashName entry.  The pass resets the start type to Normal
first, and a pass at a state with Normal start type is the identity,
so the reconciliation executes exactly once. -/
theorem restart_reconciliation_gc (s : St)
    (hRestart : s.startType = StartType.Restart)
    (hInv : GcInv s)
    (hnd : nodupKeys s.hashStrToNum)
    (hndI : (s.hashStrToNum.map Prod.snd).Nodup) :
    (compareWorkloadAndServiceWithHashName s).startType = StartType.Normal ∧
    (∀ t : St, t.startType = StartType.Normal →
      compareWorkloadAndServiceWithHashName t = t) ∧
    (∀ e ∈ s.hashStrToNum,
      ((getWorkloadByUid e.1 s).isNone && (getService e.1 s).isNone) = true →
      (backendLookup e.2 s ≠ none →
        backendLookup e.2 (compareWorkloadAndServiceWithHashName s) = none ∧
        noEpVal e.2 (compareWorkloadAndServiceWithHashName s) ∧
        alookup e.1 (compareWorkloadAndServiceWithHashName s).hashStrToNum = none) ∧
      (backendLookup e.2 s = none → serviceLookup e.2 s ≠ none →
        serviceLookup e.2 (compareWorkloadAndServiceWithHashName s) = none ∧
        (∀ j, endpointLookup (e.2, j) (compareWorkloadAndServiceWithHashName s) = none) ∧
        alookup e.1 (compareWorkloadAndServiceWithHashName s).hashStrToNum = none)) := by
  have hifp : compareWorkloadAndServiceWithHashName s =
      compareLoop s.hashStrToNum { s with startType := StartType.Normal } := by
    unfold compareWorkloadAndServiceWithHashName
    rw [if_pos hRestart]
  have hInv0 : GcInv { s with startType := StartType.Normal } := hInv
  have hagree0 : ∀ e ∈ s.hashStrToNum,
      alookup e.1 ({ s with startType := StartType.Normal } : St).hashStrToNum = some e.2 := by
    intro e he
    exact nodupKeys_alookup hnd he
  obtain ⟨_, hstF, _, _, _, _, _, hstaleF⟩ :=
    compareLoop_gc s.hashStrToNum { s with startType := StartType.Normal } hInv0 hagree0 hnd hndI
  refine ⟨?_, ?_, ?_⟩
  · rw [hifp]
    exact hstF
  · intro t ht
    unfold compareWorkloadAndServiceWithHashName
    rw [if_neg]
    rw [ht]
    intro hc
    exact StartType.noConfusion hc
  · intro e he hcond
    rw [hifp]
    exact hstaleF e he hcond

def bvC4 : BackendValue := { ip := copyIpByteFromSlice [10, 9, 8, 7] }

def stC4 : St :=
  { emptySt with
    hashStrToNum := [("stale", 7)], hashNextId := 8,
    backend := [(7, bvC4)], startType := StartType.Restart }

theorem restart_reconciliation_gc_witness :
    (stC4.startType = StartType.Restart ∧ nodupKeys stC4.hashStrToNum ∧
     (stC4.hashStrToNum.map Prod.snd).Nodup) ∧
    (compareWorkloadAndServiceWithHashName stC4).startType = StartType.Normal ∧
    backendLookup 7 (compareWorkloadAndServiceWithHashName stC4) = none ∧
    noEpVal 7 (compareWorkloadAndServiceWithHashName stC4) ∧
    alookup "stale" (compareWorkloadAndServiceWithHashName stC4).hashStrToNum = none := by
  have h := restart_reconciliation_gc stC4 rfl
    ⟨rfl, by decide, epDense_of_no_services rfl, epCounts_of_no_services rfl,
      fun v => uidUnique_of_no_endpoints rfl⟩
    (by decide) (by decide)
  obtain ⟨h1, _, h3⟩ := h
  have hE := h3 ("stale", 7) (by decide) (by decide)
  obtain ⟨hW, _⟩ := hE
  have hbk : backendLookup 7 stC4 ≠ none := by decide
  obtain ⟨hb, hv, hh⟩ := hW hbk
  exact ⟨⟨rfl, by decide, by decide⟩, h1, hb, hv, hh⟩

def wC8 : Workload :=
  { uid := "w8", addresses := [[1, 1, 1, 1], [2, 2, 2, 2]], services := ["ns/s1"],
    waypoint := none, networkMode := .standard }

theorem updateWorkload_backend_retains_last_address_witness :
    (emptySt.faults = [] ∧ 1 < wC8.addresses.length ∧
      wC8.addresses.getLast? = some [2, 2, 2, 2]) ∧
    (∃ s', updateWorkload wC8 emptySt = (s', none) ∧
      (∃ bv, backendLookup (strToNum wC8.uid emptySt).1 s' = some bv ∧
        bv.ip = copyIpByteFromSlice [2, 2, 2, 2]) ∧
      (wC8.networkMode ≠ NetworkMode.hostNetwork →
        ∀ ip ∈ wC8.addresses,
          frontendLookup (copyIpByteFromSlice ip) s' = some (strToNum wC8.uid emptySt).1)) :=
  ⟨⟨rfl, by decide, by decide⟩,
   updateWorkload_backend_retains_last_address wC8 emptySt [2, 2, 2, 2] rfl (by decide) (by decide)⟩

/-! ## Error propagation and the failed-write counter

A nil return ties the failedWrites counter: every table mutation that
fails increments it, so a handler that surfaces every write failure
returns nil only when the counter is unchanged.  handleWorkload has
this property; handleService may absorb exactly one failure — the
final Service-row update that storeServiceData logs and swallows. -/

theorem tableWrite_fw_none {m : St → St} (hm : ∀ t, (m t).failedWrites = t.failedWrites)
    {s s' : St} (h : tableWrite m s = (s', none)) : s'.failedWrites = s.failedWrites := by
  unfold tableWrite at h
  rcases hf : s.faults with _ | ⟨b, rest⟩
  · rw [hf] at h
    injection h with hA hB
    rw [← hA]
    exact hm s
  · rw [hf] at h
    cases b
    · dsimp only at h
      injection h with hA hB
      rw [← hA]
      exact hm _
    · exact Option.noConfusion (congrArg Prod.snd h)

theorem tableWrite_fw_le {m : St → St} (hm : ∀ t, (m t).failedWrites = t.failedWrites)
    (s : St) : (tableWrite m s).1.failedWrites ≤ s.failedWrites + 1 := by
  unfold tableWrite
  rcases hf : s.faults with _ | ⟨b, rest⟩
  · dsimp only
    rw [hm s]
    exact Nat.le_succ _
  · cases b
    · dsimp only
      rw [hm]
      exact Nat.le_succ s.failedWrites
    · dsimp only
      exact Nat.le_refl _

theorem frontendUpdate_fw {ip : List Nat} {v : Nat} {s s' : St}
    (h : frontendUpdate ip v s = (s', none)) : s'.failedWrites = s.failedWrites := by
  unfold frontendUpdate at h
  refine tableWrite_fw_none ?_ h
  intro t
  rfl

theorem frontendDelete_fw {ip : List Nat} {s s' : St}
    (h : frontendDelete ip s = (s', none)) : s'.failedWrites = s.failedWrites := by
  unfold frontendDelete at h
  refine tableWrite_fw_none ?_ h
  intro t
  rfl

theorem backendUpdate_fw {uid : Nat} {v : BackendValue} {s s' : St}
    (h : backendUpdate uid v s = (s', none)) : s'.failedWrites = s.failedWrites := by
  unfold backendUpdate at h
  refine tableWrite_fw_none ?_ h
  intro t
  rfl

theorem serviceUpdate_fw {sid : Nat} {v : ServiceValue} {s s' : St}
    (h : serviceUpdate sid v s = (s', none)) : s'.failedWrites = s.failedWrites := by
  unfold serviceUpdate at h
  refine tableWrite_fw_none ?_ h
  intro t
  rfl

theorem serviceUpdate_fw_le (sid : Nat) (v : ServiceValue) (s : St) :
    (serviceUpdate sid v s).1.failedWrites ≤ s.failedWrites + 1 := by
  unfold serviceUpdate
  refine tableWrite_fw_le ?_ s
  intro t
  rfl

theorem endpointUpdate_fw {ek : EndpointKeyT} {uid : Nat} {s s' : St}
    (h : endpointUpdate ek uid s = (s', none)) : s'.failedWrites = s.failedWrites := by
  unfold endpointUpdate at h
  refine tableWrite_fw_none ?_ h
  intro t
  rfl

theorem endpointDelete_fw {ek : EndpointKeyT} {s s' : St}
    (h : endpointDelete ek s = (s', none)) : s'.failedWrites = s.failedWrites := by
  unfold endpointDelete at h
  refine tableWrite_fw_none ?_ h
  intro t
  rfl

theorem storePodFrontendData_fw {uid : Nat} {ip : List Nat} {s s' : St}
    (h : storePodFrontendData uid ip s = (s', none)) : s'.failedWrites = s.failedWrites := by
  unfold storePodFrontendData at h
  exact frontendUpdate_fw h

theorem updateRelationShipWithWorkloadAndService_fw {a b c : Nat} {s s' : St}
    (h : updateRelationShipWithWorkloadAndService a b c s = (s', none)) :
    s'.failedWrites = s.failedWrites := by
  unfold updateRelationShipWithWorkloadAndService at h
  rcases h1 : endpointUpdate (b, c) a s with ⟨s1, e1⟩
  rw [h1] at h
  cases e1
  · dsimp only at h
    injection h with hA hB
    rw [← hA]
    show s1.failedWrites = s.failedWrites
    exact endpointUpdate_fw h1
  · exact Option.noConfusion (congrArg Prod.snd h)

theorem deleteRelationShipWithWorkloadAndService_fw {b c : Nat} {s s' : St}
    (h : deleteRelationShipWithWorkloadAndService b c s = (s', none)) :
    s'.failedWrites = s.failedWrites := by
  unfold deleteRelationShipWithWorkloadAndService at h
  rcases h1 : endpointDelete (b, c) s with ⟨s1, e1⟩
  rw [h1] at h
  cases e1
  · dsimp only at h
    injection h with hA hB
    rw [← hA]
    show s1.failedWrites = s.failedWrites
    exact endpointDelete_fw h1
  · exact Option.noConfusion (congrArg Prod.snd h)

theorem deleteEndpointOne_fw {ek : EndpointKeyT} {s s' : St}
    (h : deleteEndpointOne ek s = (s', none)) : s'.failedWrites = s.failedWrites := by
  unfold deleteEndpointOne at h
  rcases hsv : serviceLookup ek.1 s with _ | sv
  · rw [hsv] at h
    exact deleteRelationShipWithWorkloadAndService_fw h
  · rw [hsv] at h
    dsimp only at h
    rcases hep : endpointLookup (ek.1, sv.endpointCount) s with _ | lastVal
    · rw [hep] at h
      exact deleteRelationShipWithWorkloadAndService_fw h
    · rw [hep] at h
      dsimp only at h
      rcases h1 : updateRelationShipWithWorkloadAndService lastVal ek.1 ek.2 s with ⟨s1, e1⟩
      rw [h1] at h
      cases e1
      · dsimp only at h
        rcases h2 : endpointDelete (ek.1, sv.endpointCount) s1 with ⟨s2, e2⟩
        rw [h2] at h
        cases e2
        · dsimp only at h
          rw [serviceUpdate_fw h]
          show s2.failedWrites = s.failedWrites
          rw [endpointDelete_fw h2, updateRelationShipWithWorkloadAndService_fw h1]
        · exact Option.noConfusion (congrArg Prod.snd h)
      · exact Option.noConfusion (congrArg Prod.snd h)

theorem deleteEndpointRecords_fw :
    ∀ (eks : List EndpointKeyT) {s s' : St},
    deleteEndpointRecords eks s = (s', none) → s'.failedWrites = s.failedWrites := by
  intro eks
  induction eks with
  | nil =>
    intro s s' h
    unfold deleteEndpointRecords at h
    injection h with hA hB
    rw [← hA]
  | cons ek rest ih =>
    intro s s' h
    unfold deleteEndpointRecords at h
    rcases h1 : deleteEndpointOne ek s with ⟨s1, e1⟩
    rw [h1] at h
    cases e1
    · dsimp only at h
      rw [ih h, deleteEndpointOne_fw h1]
    · exact Option.noConfusion (congrArg Prod.snd h)

theorem collectResidualEks_fw :
    ∀ (names : List String) (wuid : Nat) (eks : List EndpointKeyT) (s : St),
    (collectResidualEks wuid names eks s).2.failedWrites = s.failedWrites := by
  intro names
  induction names with
  | nil => intro wuid eks s; rfl
  | cons n rest ih =>
    intro wuid eks s
    unfold collectResidualEks
    dsimp only
    rw [ih, strToNum_failedWrites]

theorem deleteResidualServicesWithWorkload_fw {w : Workload} {services : List String} {s s' : St}
    (h : deleteResidualServicesWithWorkload w services s = (s', none)) :
    s'.failedWrites = s.failedWrites := by
  unfold deleteResidualServicesWithWorkload at h
  dsimp only at h
  rw [deleteEndpointRecords_fw _ h, collectResidualEks_fw, strToNum_failedWrites]

theorem storeEndpointWithService_fw {sid : Nat} {sv : ServiceValue} {uid : Nat} {s s' : St}
    (h : storeEndpointWithService sid sv uid s = (s', none)) :
    s'.failedWrites = s.failedWrites := by
  unfold storeEndpointWithService at h
  dsimp only at h
  rcases h1 : endpointUpdate (sid, mod32 (sv.endpointCount + 1)) uid s with ⟨s1, e1⟩
  rw [h1] at h
  cases e1
  · dsimp only at h
    rcases h2 : serviceUpdate sid { sv with endpointCount := mod32 (sv.endpointCount + 1) } s1
        with ⟨s2, e2⟩
    rw [h2] at h
    cases e2
    · dsimp only at h
      injection h with hA hB
      rw [← hA]
      show s2.failedWrites = s.failedWrites
      rw [serviceUpdate_fw h2, endpointUpdate_fw h1]
    · exact Option.noConfusion (congrArg Prod.snd h)
  · exact Option.noConfusion (congrArg Prod.snd h)

theorem addNewServicesLoop_fw :
    ∀ (names : List String) (w : Workload) (buid : Nat) {s s' : St},
    addNewServicesLoop w buid names s = (s', none) → s'.failedWrites = s.failedWrites := by
  intro names
  induction names with
  | nil =>
    intro w buid s s' h
    unfold addNewServicesLoop at h
    injection h with hA hB
    rw [← hA]
  | cons n rest ih =>
    intro w buid s s' h
    unfold addNewServicesLoop at h
    dsimp only at h
    rcases hsv : serviceLookup (strToNum n s).1 (strToNum n s).2 with _ | sv
    · rw [hsv] at h
      dsimp only at h
      rw [ih w buid h]
      show (strToNum n s).2.failedWrites = s.failedWrites
      exact strToNum_failedWrites n s
    · rw [hsv] at h
      dsimp only at h
      rcases h1 : storeEndpointWithService (strToNum n s).1 sv buid (strToNum n s).2
          with ⟨s1, e1⟩
      rw [h1] at h
      cases e1
      · dsimp only at h
        rw [ih w buid h, storeEndpointWithService_fw h1, strToNum_failedWrites]
      · exact Option.noConfusion (congrArg Prod.snd h)

theorem addNewServicesWithWorkload_fw {w : Workload} {newServices : List String} {s s' : St}
    (h : addNewServicesWithWorkload w newServices s = (s', none)) :
    s'.failedWrites = s.failedWrites := by
  unfold addNewServicesWithWorkload at h
  dsimp only at h
  rw [addNewServicesLoop_fw newServices w (strToNum w.uid s).1 h, strToNum_failedWrites]

theorem updateWorkloadServices_fw :
    ∀ (names : List String) (bv : BackendValue) (s : St),
    (updateWorkloadServices names bv s).2.failedWrites = s.failedWrites := by
  intro names
  induction names with
  | nil => intro bv s; rfl
  | cons n rest ih =>
    intro bv s
    unfold updateWorkloadServices
    dsimp only
    split
    · exact strToNum_failedWrites n s
    · rw [ih, strToNum_failedWrites]

theorem updateWorkloadAddrs_fw :
    ∀ (addrs : List (List Nat)) (uid : Nat) (nm : NetworkMode) (bv : BackendValue) {s s' : St},
    updateWorkloadAddrs uid nm addrs bv s = (s', none) → s'.failedWrites = s.failedWrites := by
  intro addrs
  induction addrs with
  | nil =>
    intro uid nm bv s s' h
    unfold updateWorkloadAddrs at h
    injection h with hA hB
    rw [← hA]
  | cons ip rest ih =>
    intro uid nm bv s s' h
    unfold updateWorkloadAddrs at h
    dsimp only at h
    rcases h1 : backendUpdate uid { bv with ip := copyIpByteFromSlice ip } s with ⟨s1, e1⟩
    rw [h1] at h
    cases e1
    · dsimp only at h
      by_cases hnm : nm ≠ NetworkMode.hostNetwork
      · rw [if_pos hnm] at h
        rcases h2 : storePodFrontendData uid ip s1 with ⟨s2, e2⟩
        rw [h2] at h
        cases e2
        · dsimp only at h
          rw [ih uid nm _ h, storePodFrontendData_fw h2, backendUpdate_fw h1]
        · exact Option.noConfusion (congrArg Prod.snd h)
      · rw [if_neg hnm] at h
        rw [ih uid nm _ h, backendUpdate_fw h1]
    · exact Option.noConfusion (congrArg Prod.snd h)

theorem updateWorkload_fw {w : Workload} {s s' : St}
    (h : updateWorkload w s = (s', none)) : s'.failedWrites = s.failedWrites := by
  unfold updateWorkload at h
  dsimp only at h
  rw [updateWorkloadAddrs_fw w.addresses (strToNum w.uid s).1 w.networkMode _ h,
    updateWorkloadServices_fw, strToNum_failedWrites]

theorem handleWorkload_fw {w : Workload} {s s' : St}
    (h : handleWorkload w s = (s', none)) : s'.failedWrites = s.failedWrites := by
  unfold handleWorkload at h
  dsimp only at h
  rcases h1 : deleteResidualServicesWithWorkload w (addOrUpdateWorkload w s).1.1
      (addOrUpdateWorkload w s).2 with ⟨s1, e1⟩
  rw [h1] at h
  cases e1
  · dsimp only at h
    rcases h2 : addNewServicesWithWorkload w (addOrUpdateWorkload w s).1.2 s1 with ⟨s2, e2⟩
    rw [h2] at h
    cases e2
    · dsimp only at h
      rw [updateWorkload_fw h, addNewServicesWithWorkload_fw h2,
        deleteResidualServicesWithWorkload_fw h1]
      rfl
    · exact Option.noConfusion (congrArg Prod.snd h)
  · exact Option.noConfusion (congrArg Prod.snd h)

theorem storeServiceFrontendLoop_fw :
    ∀ (addrs : List (List Nat)) (sid : Nat) {s s' : St},
    storeServiceFrontendLoop sid addrs s = (s', none) → s'.failedWrites = s.failedWrites := by
  intro addrs
  induction addrs with
  | nil =>
    intro sid s s' h
    unfold storeServiceFrontendLoop at h
    injection h with hA hB
    rw [← hA]
  | cons a rest ih =>
    intro sid s s' h
    unfold storeServiceFrontendLoop at h
    rcases h1 : frontendUpdate (copyIpByteFromSlice a) sid s with ⟨s1, e1⟩
    rw [h1] at h
    cases e1
    · dsimp only at h
      rw [ih sid h, frontendUpdate_fw h1]
    · exact Option.noConfusion (congrArg Prod.snd h)

theorem storeServiceFrontendData_fw {sid : Nat} {svc : Service} {s s' : St}
    (h : storeServiceFrontendData sid svc s = (s', none)) : s'.failedWrites = s.failedWrites := by
  unfold storeServiceFrontendData at h
  exact storeServiceFrontendLoop_fw svc.addresses sid h

theorem drainEndpointLoop_fw :
    ∀ (order : List String) (sid idx : Nat) {s s' : St},
    drainEndpointLoop sid order idx s = (s', none) → s'.failedWrites = s.failedWrites := by
  intro order
  induction order with
  | nil =>
    intro sid idx s s' h
    unfold drainEndpointLoop at h
    injection h with hA hB
    rw [← hA]
  | cons u rest ih =>
    intro sid idx s s' h
    unfold drainEndpointLoop at h
    dsimp only at h
    rcases h1 : endpointUpdate (sid, idx + 1) (strToNum u s).1 (strToNum u s).2 with ⟨s1, e1⟩
    rw [h1] at h
    cases e1
    · dsimp only at h
      rw [ih sid (idx + 1) h]
      show s1.failedWrites = s.failedWrites
      rw [endpointUpdate_fw h1, strToNum_failedWrites]
    · exact Option.noConfusion (congrArg Prod.snd h)

theorem storeServiceData_fw_le {name : String} {wp : Option GatewayAddress}
    {ports : List Port} {order : List String} {s s' : St}
    (h : storeServiceData name wp ports order s = (s', none)) :
    s'.failedWrites ≤ s.failedWrites + 1 := by
  unfold storeServiceData at h
  dsimp only at h
  rcases hsv : serviceLookup (strToNum name s).1 (strToNum name s).2 with _ | oldValue
  · rw [hsv] at h
    dsimp only at h
    rcases hbuf : alookup name (strToNum name s).2.endpointsByService with _ | caches
    · rw [hbuf] at h
      dsimp only at h
      injection h with hA hB
      rw [← hA]
      refine le_trans (serviceUpdate_fw_le _ _ _) ?_
      exact Nat.add_le_add_right (Nat.le_of_eq (strToNum_failedWrites name s)) 1
    · rw [hbuf] at h
      dsimp only at h
      rcases h1 : drainEndpointLoop (strToNum name s).1 order 0 (strToNum name s).2
          with ⟨s1, e1⟩
      rw [h1] at h
      cases e1
      · dsimp only at h
        injection h with hA hB
        rw [← hA]
        refine le_trans (serviceUpdate_fw_le _ _ _) ?_
        have h2 := drainEndpointLoop_fw order (strToNum name s).1 0 h1
        exact Nat.add_le_add_right (Nat.le_of_eq (h2.trans (strToNum_failedWrites name s))) 1
      · exact Option.noConfusion (congrArg Prod.snd h)
  · rw [hsv] at h
    dsimp only at h
    injection h with hA hB
    rw [← hA]
    refine le_trans (serviceUpdate_fw_le _ _ _) ?_
    exact Nat.add_le_add_right (Nat.le_of_eq (strToNum_failedWrites name s)) 1

theorem handleServiceCore_fw_le {svc : Service} {order : List String} {s s' : St}
    (h : handleServiceCore svc order s = (s', none)) :
    s'.failedWrites ≤ s.failedWrites + 1 := by
  unfold handleServiceCore at h
  dsimp only at h
  rcases h1 : storeServiceFrontendData (strToNum svc.resourceName (addOrUpdateService svc s)).1
      svc (strToNum svc.resourceName (addOrUpdateService svc s)).2 with ⟨s1, e1⟩
  rw [h1] at h
  cases e1
  · dsimp only at h
    refine le_trans (storeServiceData_fw_le h) ?_
    have h2 : s1.failedWrites = s.failedWrites :=
      (storeServiceFrontendData_fw h1).trans (strToNum_failedWrites _ _)
    exact Nat.add_le_add_right (Nat.le_of_eq h2) 1
  · exact Option.noConfusion (congrArg Prod.snd h)

theorem handleService_fw_le {svc : Service} {order : List String} {s s' : St}
    (h : handleService svc order s = (s', none)) : s'.failedWrites ≤ s.failedWrites + 1 := by
  unfold handleService at h
  rcases hwp : svc.waypoint with _ | wp
  · rw [hwp] at h
    exact handleServiceCore_fw_le h
  · rw [hwp] at h
    dsimp only at h
    rcases haddr : svc.addresses with _ | ⟨a0, rest⟩
    · rw [haddr] at h
      exact Option.noConfusion (congrArg Prod.snd h)
    · rw [haddr] at h
      dsimp only at h
      exact handleServiceCore_fw_le h

/-! ## The drain of buffered memberships, relative to an iteration
order -/

/-- The drain loop with pre-assigned ids: position i of the drained
list receives the Endpoint slot idx + i + 1 holding that uid's id,
keys outside the written range are untouched, and the Service table,
the buffer and the hash map are unchanged. -/
theorem drainEndpointLoop_rows (sid : Nat) (f : String → Nat) :
    ∀ (uids : List String) (idx : Nat) (s : St), s.faults = [] →
    (∀ u ∈ uids, alookup u s.hashStrToNum = some (f u)) →
    ∃ s', drainEndpointLoop sid uids idx s = (s', none) ∧ s'.faults = [] ∧
      s'.service = s.service ∧ s'.endpointsByService = s.endpointsByService ∧
      s'.hashStrToNum = s.hashStrToNum ∧
      (∀ i (hi : i < uids.length),
        endpointLookup (sid, idx + i + 1) s' = some (f (uids.get ⟨i, hi⟩))) ∧
      (∀ k : EndpointKeyT, k.1 ≠ sid ∨ k.2 ≤ idx ∨ idx + uids.length < k.2 →
        endpointLookup k s' = endpointLookup k s) := by
  intro uids
  induction uids with
  | nil =>
    intro idx s hf hpre
    exact ⟨s, rfl, hf, rfl, rfl, rfl, fun i hi => absurd hi (Nat.not_lt_zero i),
      fun k _ => rfl⟩
  | cons u rest ih =>
    intro idx s hf hpre
    have hid : alookup u s.hashStrToNum = some (f u) := hpre u (List.mem_cons_self _ _)
    have hst := strToNum_of_mem hid
    have hst1 : (strToNum u s).1 = f u := by rw [hst]
    have hst2 : (strToNum u s).2 = s := by rw [hst]
    obtain ⟨s1, he1, hd1⟩ := endpointUpdate_ok (sid, idx + 1) (f u) s hf
    have hf1 : (updateRelationShipCache (f u) sid (idx + 1) s1).faults = [] := by
      show s1.faults = []
      rw [hd1]
      exact hf
    have hpre1 : ∀ v ∈ rest,
        alookup v (updateRelationShipCache (f u) sid (idx + 1) s1).hashStrToNum = some (f v) := by
      intro v hv
      show alookup v s1.hashStrToNum = some (f v)
      rw [hd1]
      exact hpre v (List.mem_cons_of_mem _ hv)
    obtain ⟨s', hrun, hfa, hsv, heb, hhash, hrows, hframe⟩ :=
      ih (idx + 1) (updateRelationShipCache (f u) sid (idx + 1) s1) hf1 hpre1
    refine ⟨s', ?_, hfa, ?_, ?_, ?_, ?_, ?_⟩
    · simp only [drainEndpointLoop, hst1, hst2, he1]
      exact hrun
    · rw [hsv]
      show s1.service = s.service
      rw [hd1]
    · rw [heb]
      show s1.endpointsByService = s.endpointsByService
      rw [hd1]
    · rw [hhash]
      show s1.hashStrToNum = s.hashStrToNum
      rw [hd1]
    · intro i hi
      cases i with
      | zero =>
        have h0 := hframe (sid, idx + 1) (Or.inr (Or.inl (Nat.le_refl _)))
        show endpointLookup (sid, idx + 1) s' = some (f u)
        rw [h0]
        show alookup (sid, idx + 1) s1.endpoint = some (f u)
        rw [hd1]
        exact alookup_aupdate_self _ _ _
      | succ j =>
        have hj : j < rest.length := Nat.lt_of_succ_lt_succ hi
        have hr := hrows j hj
        have hkey : idx + (j + 1) + 1 = idx + 1 + j + 1 := by omega
        rw [hkey]
        exact hr
    · intro k hk
      have hk' : k.1 ≠ sid ∨ k.2 ≤ idx + 1 ∨ idx + 1 + rest.length < k.2 := by
        rcases hk with h | h | h
        · exact Or.inl h
        · exact Or.inr (Or.inl (Nat.le_succ_of_le h))
        · refine Or.inr (Or.inr ?_)
          have hlc : (u :: rest).length = rest.length + 1 := rfl
          omega
      have hne : ¬ ((sid, idx + 1) = k) := by
        intro he
        rcases hk with h | h | h
        · rw [← he] at h
          exact h rfl
        · rw [← he] at h
          have h2 : idx + 1 ≤ idx := h
          omega
        · rw [← he] at h
          have h2 : idx + (u :: rest).length < idx + 1 := h
          have hlc : (u :: rest).length = rest.length + 1 := rfl
          omega
      rw [hframe k hk']
      show alookup k s1.endpoint = endpointLookup k s
      rw [hd1]
      show alookup k (aupdate (sid, idx + 1) (f u) s.endpoint) = endpointLookup k s
      rw [alookup_aupdate, if_neg hne]
      rfl

/-- C3 (corrected): the drain of the buffered memberships on a
service's first appearance is deterministic only relative to the
given iteration order of the Go map range over the buffered set:
backendIndex 1, 2, … are assigned to the buffered uids in that order,
the stored endpointCount is the size of the buffered set, and the
buffer entry is deleted. -/
theorem storeServiceData_drain_spec (name : String) (wp : Option GatewayAddress)
    (ports : List Port) (order caches : List String) (s : St) (f : String → Nat)
    (hf : s.faults = [])
    (hsv : serviceLookup (strToNum name s).1 (strToNum name s).2 = none)
    (hbuf : alookup name (strToNum name s).2.endpointsByService = some caches)
    (hperm : order.Perm caches)
    (hlen : caches.length < 4294967296)
    (hpre : ∀ u ∈ order, alookup u s.hashStrToNum = some (f u)) :
    ∃ s' sv, storeServiceData name wp ports order s = (s', none) ∧
      (∀ i (hi : i < order.length),
        endpointLookup ((strToNum name s).1, i + 1) s' = some (f (order.get ⟨i, hi⟩))) ∧
      serviceLookup (strToNum name s).1 s' = some sv ∧
      sv.endpointCount = caches.length ∧
      alookup name s'.endpointsByService = none := by
  have hf2 : (strToNum name s).2.faults = [] := by rw [strToNum_faults]; exact hf
  have hpre2 : ∀ u ∈ order, alookup u (strToNum name s).2.hashStrToNum = some (f u) := by
    intro u hu
    rw [strToNum_hash_lookup]
    by_cases hn : name = u
    · rw [if_pos hn]
      have hm : alookup name s.hashStrToNum = some (f u) := by rw [hn]; exact hpre u hu
      rw [strToNum_of_mem hm]
    · rw [if_neg hn]
      exact hpre u hu
  obtain ⟨s1, hrun1, hfa1, hsv1, heb1, hh1, hrows1, _⟩ :=
    drainEndpointLoop_rows (strToNum name s).1 f order 0 (strToNum name s).2 hf2 hpre2
  have hs2f : (deleteEndpointsByService name s1).faults = [] := hfa1
  exact ⟨_, _,
    by simp only [storeServiceData, hsv, hbuf, hrun1]; rfl,
    by
      intro i hi
      rw [serviceUpdate_nofault _ _ _ hs2f]
      show endpointLookup ((strToNum name s).1, i + 1) s1 = some (f (order.get ⟨i, hi⟩))
      have hr := hrows1 i hi
      rw [Nat.zero_add] at hr
      exact hr,
    by
      rw [serviceUpdate_nofault _ _ _ hs2f]
      exact alookup_aupdate_self _ _ _,
    by
      show mod32 caches.length = caches.length
      unfold mod32
      exact Nat.mod_eq_of_lt hlen,
    by
      rw [serviceUpdate_nofault _ _ _ hs2f]
      show alookup name (aremove name s1.endpointsByService) = none
      exact alookup_aremove_self _ _⟩

def fC3 : String → Nat := fun u => if u = "w1" then 1 else 2

def stC3b : St :=
  { emptySt with
    hashStrToNum := [("w1", 1), ("w2", 2)], hashNextId := 3,
    endpointsByService := [("ns/svc", ["w1", "w2"])] }

theorem storeServiceData_drain_spec_witness :
    (stC3b.faults = [] ∧
     serviceLookup (strToNum "ns/svc" stC3b).1 (strToNum "ns/svc" stC3b).2 = none ∧
     alookup "ns/svc" (strToNum "ns/svc" stC3b).2.endpointsByService = some ["w1", "w2"] ∧
     (["w2", "w1"] : List String).Perm ["w1", "w2"] ∧
     (["w1", "w2"] : List String).length < 4294967296 ∧
     (∀ u ∈ (["w2", "w1"] : List String), alookup u stC3b.hashStrToNum = some (fC3 u))) ∧
    (∃ s' sv, storeServiceData "ns/svc" none [] ["w2", "w1"] stC3b = (s', none) ∧
      (∀ i (hi : i < (["w2", "w1"] : List String).length),
        endpointLookup ((strToNum "ns/svc" stC3b).1, i + 1) s' =
          some (fC3 ((["w2", "w1"] : List String).get ⟨i, hi⟩))) ∧
      serviceLookup (strToNum "ns/svc" stC3b).1 s' = some sv ∧
      sv.endpointCount = (["w1", "w2"] : List String).length ∧
      alookup "ns/svc" s'.endpointsByService = none) :=
  ⟨⟨rfl, by decide, by decide, by decide, by decide, by decide⟩,
   storeServiceData_drain_spec "ns/svc" none [] ["w2", "w1"] ["w1", "w2"] stC3b fC3
     rfl (by decide) (by decide) (by decide) (by decide) (by decide)⟩

/-- C5 (corrected): a nil return bounds the failed table writes.
handleWorkload surfaces every TableStore write failure, so it returns
nil only when no write on its behalf failed; handleService swallows
at most the failure of the final Service-row update inside
storeServiceData, so it can return nil with at most one failed
write. -/
theorem handle_error_propagation :
    (∀ (w : Workload) (s s' : St), handleWorkload w s = (s', none) →
      s'.failedWrites = s.failedWrites) ∧
    (∀ (svc : Service) (order : List String) (s s' : St),
      handleService svc order s = (s', none) → s'.failedWrites ≤ s.failedWrites + 1) :=
  ⟨fun _ _ _ h => handleWorkload_fw h, fun _ _ _ _ h => handleService_fw_le h⟩

theorem handle_error_propagation_witness :
    handleWorkload wC1 emptySt = ((handleWorkload wC1 emptySt).1, none) ∧
    (handleWorkload wC1 emptySt).1.failedWrites = emptySt.failedWrites ∧
    handleService svcC5 [] stC5 = ((handleService svcC5 [] stC5).1, none) ∧
    (handleService svcC5 [] stC5).1.failedWrites ≤ stC5.failedWrites + 1 :=
  ⟨by decide, handle_error_propagation.1 wC1 emptySt _ (by decide),
   by decide, handle_error_propagation.2 svcC5 [] stC5 _ (by decide)⟩

end Kmesh
